import Mathlib

/-!
Verification development for the scalper trading engine
(src/lib/scalper.js).  The definitions below are a shallow embedding of
the relevant code: JavaScript numbers are modelled as exact rationals
(`ℚ`) except for the Black–Scholes probability model, which uses `ℝ`
because the source calls `Math.log` / `Math.exp` / `Math.sqrt`.
Millisecond timestamps are rationals; JS falsiness of a number is `= 0`
and of a string is `= ""`.
-/

namespace Scalper

/-! ### Configuration constants (scalper.js lines 12-100) -/

def PROBE_SIZE : ℚ := 1
def MAX_POSITIONS : Nat := 1
def MAX_SINGLE_BET : ℚ := 10
def MAX_5M_BET : ℚ := 2
def ENTRY_LOCK_MS : ℚ := 2000
def MIN_ENTRY_SECS : ℚ := 60
def SLIPPAGE_PENALTY : ℚ := 1/50
def SPREAD_COST_ENTRY : ℚ := 1/2
def SPREAD_COST_EXIT : ℚ := 1/2
def SIZE_IMPACT_THRESHOLD : ℚ := 100
def SIZE_IMPACT_FACTOR : ℚ := 1/10000
def LATE_EXIT_SPREAD_MULT : ℚ := 2
def ENTRY_MIN : ℚ := 3/20
def ENTRY_MAX : ℚ := 17/20
def MOM_WEAK : ℚ := 1/5000
def MOM_STRONG : ℚ := 1/500
def BEAR_BOOST : ℚ := 6/5
def DAILY_LOSS_LIMIT : ℚ := 6
def HEALTH_WINDOW : Nat := 30
def HEALTH_MIN_WINRATE : ℚ := 9/20
def RSI_OB : ℚ := 80
def RSI_OS : ℚ := 20
def LATENCY_DELAY_MS : ℚ := 5000
def PROBE_WINDOW : Nat := 20
def PROBE_MIN_SAMPLES : Nat := 3
def PROBE_WIN_THRESHOLD : ℚ := 11/20

/-- Market timeframes (the JS code uses the strings 5m/15m/1h/4h/1d). -/
inductive Timeframe
  | m5 | m15 | h1 | h4 | d1
deriving DecidableEq, Repr

open Timeframe

def STOP_LOSS_BY_TF : Timeframe → ℚ
  | m5 => 3/25 | m15 => 9/50 | h1 => 7/25 | h4 => 7/20 | d1 => 2/5

def TRAILING_LOCK_BY_TF : Timeframe → ℚ
  | m5 => 1/2 | m15 => 9/20 | h1 => 7/20 | h4 => 3/10 | d1 => 1/4

def PROFIT_TARGET_BY_TF : Timeframe → ℚ
  | m5 => 2/25 | m15 => 3/25 | h1 => 1/5 | h4 => 7/25 | d1 => 9/20

def HOLD_THROUGH_DIPS : Timeframe → Bool
  | m5 => false | m15 => false | h1 => true | h4 => true | d1 => true

def LIQUIDITY_EXIT_BY_TF : Timeframe → ℚ
  | m5 => 30 | m15 => 60 | h1 => 120 | h4 => 240 | d1 => 600

def FORCE_EXIT_BY_TF : Timeframe → ℚ
  | m5 => 15 | m15 => 30 | h1 => 60 | h4 => 120 | d1 => 300

/-- STALE_BY_TF has no "15m" key in the source, so the lookup
`STALE_BY_TF[tf] || DEFAULT_STALE` yields DEFAULT_STALE = 1800000 there. -/
def STALE_BY_TF : Timeframe → ℚ
  | m5 => 240000 | m15 => 1800000 | h1 => 1800000 | h4 => 7200000 | d1 => 43200000

/-- Long timeframe test used throughout `_managePositions`:
`tf === "1d" || tf === "4h" || tf === "1h"`. -/
def isLongTF : Timeframe → Bool
  | h1 => true | h4 => true | d1 => true | _ => false

/-- JS `Math.round` (round half toward positive infinity). -/
def jsRound (x : ℚ) : ℚ := (⌊x + 1/2⌋ : ℤ)

/-- `Math.round(x * 100) / 100` — rounding money to cents. -/
def jsRound2 (x : ℚ) : ℚ := jsRound (x * 100) / 100

/-- `Math.round(x * 10000) / 10000` — rounding prices to 4 decimals. -/
def jsRound4 (x : ℚ) : ℚ := jsRound (x * 10000) / 10000

/-! ### Probe / test system (scalper.js lines 1092-1112) -/

/-- Per-pattern track record: `{ wins, losses, results: [bool...] }`. -/
structure ProbeEntry where
  wins : Nat
  losses : Nat
  results : List Bool
deriving DecidableEq, Repr

/-- `_recordProbeResult`: push the outcome, trim the rolling window by one
when it exceeds PROBE_WINDOW, then bump wins or losses. -/
def recordProbeResult (p : ProbeEntry) (won : Bool) : ProbeEntry :=
  let results := p.results ++ [won]
  let results := if PROBE_WINDOW < results.length then results.drop 1 else results
  { wins := if won then p.wins + 1 else p.wins
    losses := if won then p.losses else p.losses + 1
    results := results }

structure ProbeRecordView where
  samples : Nat
  winRate : ℚ
  recentWR : ℚ
  proven : Bool
deriving DecidableEq, Repr

/-- `_getProbeRecord`: a pattern is proven once it has at least
PROBE_MIN_SAMPLES outcomes in the rolling window and a rolling win rate
of at least PROBE_WIN_THRESHOLD. -/
def getProbeRecord (p : Option ProbeEntry) : ProbeRecordView :=
  match p with
  | none => ⟨0, 0, 0, false⟩
  | some p =>
    if p.results.length = 0 then ⟨0, 0, 0, false⟩
    else
      let samples := p.results.length
      let totalWR : ℚ := (p.wins : ℚ) / ((p.wins : ℚ) + (p.losses : ℚ))
      let recentWins := (p.results.filter id).length
      let recentWR : ℚ := (recentWins : ℚ) / (samples : ℚ)
      let proven := decide (PROBE_MIN_SAMPLES ≤ samples) && decide (PROBE_WIN_THRESHOLD ≤ recentWR)
      ⟨samples, totalWR, recentWR, proven⟩

/-- The probe map `this._probeResults` (a JS object keyed by pattern). -/
abbrev ProbeMap := List (String × ProbeEntry)

/-- Lookup with JS semantics: a missing key reads as undefined. -/
def probeLookup (m : ProbeMap) (key : String) : Option ProbeEntry :=
  (List.find? (fun kv => kv.1 == key) m).map (fun kv => kv.2)

/-- `_recordProbeResult` at the map level: create the entry if absent,
then record. -/
def probeRecord (m : ProbeMap) (key : String) (won : Bool) : ProbeMap :=
  match probeLookup m key with
  | some _ => List.map (fun kv => if kv.1 == key then (kv.1, recordProbeResult kv.2 won) else kv) m
  | none => m ++ [(key, recordProbeResult ⟨0, 0, []⟩ won)]

/-! ### Signal engine (scalper.js lines 708-873) -/

/-- One element of `this._realPrices[asset]`: price, volume, ms timestamp. -/
structure Obs where
  price : ℚ
  vol : ℚ
  ts : ℚ
deriving DecidableEq, Repr

structure Signal where
  direction : ℤ
  strength : ℚ
  reason : String
deriving DecidableEq, Repr

/-- Backward scan of `_getPriceAtTime`: walk from the newest observation
toward the oldest, keeping the strictly closest to the target timestamp,
and stop at the first non-improvement (`else break`). -/
def priceScan : List Obs → ℚ → Option Obs → Option ℚ → Option Obs × Option ℚ
  | [], _, best, bestDist => (best, bestDist)
  | o :: rest, targetTs, best, bestDist =>
    let dist := |o.ts - targetTs|
    if (match bestDist with | none => true | some bd => decide (dist < bd)) then
      priceScan rest targetTs (some o) (some dist)
    else (best, bestDist)

/-- `_getPriceAtTime(asset, secsAgo)`: nearest observation to
`now - secsAgo`, only accepted within the 120000 ms staleness bound. -/
def getPriceAtTime (hist : List Obs) (now secsAgo : ℚ) : Option ℚ :=
  match hist with
  | [] => none
  | _ =>
    let targetTs := now - secsAgo * 1000
    match priceScan hist.reverse targetTs none none with
    | (some o, some d) => if d < 120000 then some o.price else none
    | _ => none

/-- `_getMomentum(asset, secsAgo)`. -/
def getMomentum (hist : List Obs) (now secsAgo : ℚ) : ℚ :=
  match hist.getLast? with
  | none => 0
  | some lastObs =>
    let current := lastObs.price
    match getPriceAtTime hist now secsAgo with
    | none => 0
    | some past => if past ≤ 0 then 0 else (current - past) / past

def signalFlat (reason : String) : Signal := ⟨0, 0, reason⟩

def reasonNoData : String := "no-data"
def reasonWarmingUp : String := "warming-up"
def reasonFlat : String := "flat"

/-- `_getSignalRaw`: cold-start guards then the weighted multi-lookback
momentum blend.  Mirrors scalper.js lines 809-839. -/
def getSignalRaw (hist : List Obs) (now : ℚ) : Signal :=
  match hist with
  | [] => signalFlat reasonNoData
  | h0 :: _ =>
    if hist.length < 3 then signalFlat reasonNoData
    else
      let dataAge := (now - h0.ts) / 1000
      if dataAge < 30 then signalFlat reasonWarmingUp
      else
        let nowP := (hist.getLast?.getD h0).price
        let p30s := (getPriceAtTime hist now 30).getD nowP
        let p90s := (getPriceAtTime hist now 90).getD p30s
        let p3m := (getPriceAtTime hist now 180).getD p90s
        let p5m := (getPriceAtTime hist now 300).getD p3m
        let p10m := (getPriceAtTime hist now 600).getD p5m
        let mom30s := (nowP - p30s) / p30s
        let mom90s := (nowP - p90s) / p90s
        let mom3m := (nowP - p3m) / p3m
        let mom5m := (nowP - p5m) / p5m
        let mom10m := (nowP - p10m) / p10m
        let signal := mom30s * (3/10) + mom90s * (1/4) + mom3m * (1/5) + mom5m * (3/20) + mom10m * (1/10)
        let absSignal := |signal|
        let signs : List ℤ := [mom30s, mom90s, mom3m, mom5m].map
          (fun m => if 0 < m then 1 else if m < 0 then -1 else 0)
        let consistency : ℚ := (|signs.sum| : ℤ) / (signs.length : ℚ)
        if absSignal < MOM_WEAK then signalFlat reasonFlat
        else
          let direction : ℤ := if 0 < signal then 1 else -1
          let strength := min (absSignal / MOM_STRONG) 1 * (3/5) + consistency * (2/5)
          let strength :=
            if dataAge < 90 then min strength (2/5)
            else if dataAge < 180 then min strength (7/10) else strength
          ⟨direction, strength, ""⟩

/-- Indicator context consumed by `_getSignal`.  The RSI, Bollinger,
cross-asset-consensus and volume-ratio subroutines read other parts of
the engine state; their outputs enter the model as inputs here. -/
structure SignalCtx where
  rsi : ℚ
  bbPosition : ℚ
  crossConsensus : ℤ
  crossAgreement : ℚ
  volRatio : ℚ
  volAvg : ℚ
deriving DecidableEq, Repr

def labelStrong : String := "strong"
def labelMid : String := "mid"
def labelWeak : String := "weak"
def labelBull : String := "bull"
def labelBear : String := "bear"

/-- `_getSignal`: raw signal plus the RSI / Bollinger / cross-asset /
asymmetric-bear / volume boosts, capped at 1.  Mirrors lines 841-873
(the boost-tag list only feeds the log string and is kept implicit). -/
def getSignal (hist : List Obs) (now : ℚ) (ctx : SignalCtx) : Signal :=
  let raw := getSignalRaw hist now
  if raw.direction = 0 then signalFlat reasonFlat
  else
    let strength := raw.strength
    let strength :=
      if 0 < raw.direction ∧ RSI_OB < ctx.rsi then strength * (23/20)
      else if raw.direction < 0 ∧ ctx.rsi < RSI_OS then strength * (23/20)
      else if (0 < raw.direction ∧ ctx.rsi < 35) ∨ (raw.direction < 0 ∧ 65 < ctx.rsi) then strength * (7/10)
      else strength
    let strength :=
      if 0 < raw.direction ∧ 0 < ctx.bbPosition then strength * (11/10)
      else if raw.direction < 0 ∧ ctx.bbPosition < 0 then strength * (11/10)
      else strength
    let strength :=
      if ctx.crossConsensus = raw.direction ∧ (33/50) ≤ ctx.crossAgreement then strength * (23/20)
      else if ctx.crossConsensus ≠ 0 ∧ ctx.crossConsensus ≠ raw.direction then strength * (4/5)
      else strength
    let strength := if raw.direction < 0 then strength * BEAR_BOOST else strength
    let strength :=
      if 2 < ctx.volRatio ∧ 0 < ctx.volAvg then strength * (6/5)
      else if ctx.volRatio < (3/10) ∧ 0 < ctx.volAvg then strength * (7/10)
      else strength
    let strength := min strength 1
    let label := if (7/10 : ℚ) < strength then labelStrong
      else if (2/5 : ℚ) < strength then labelMid else labelWeak
    ⟨raw.direction, strength,
      (if 0 < raw.direction then labelBull else labelBear) ++ "-" ++ label⟩

/-- `_checkModelHealth` (lines 875-881): pause when the rolling win rate
over the last HEALTH_WINDOW closed trades drops below the floor.
`history` holds closed-trade P&L values, newest first. -/
def checkModelHealth (history : List ℚ) : Bool :=
  if history.length < HEALTH_WINDOW then true
  else
    let recent := history.take HEALTH_WINDOW
    let wr : ℚ := ((recent.filter (fun t => decide (0 ≤ t))).length : ℚ) / (recent.length : ℚ)
    !(decide (wr < HEALTH_MIN_WINRATE))

/-! ### CLOB execution simulation (scalper.js lines 912-1072) -/

/-- `this._executionStats`. -/
structure ExecStats where
  fills : Nat
  failures : Nat
  totalSlippage : ℚ
  totalSpreadCost : ℚ
deriving DecidableEq, Repr

/-- A cached orderbook entry of `this._orderbooks[tokenId]`.
`asksEmpty` / `bidsEmpty` model `book.asks.length === 0` etc. -/
structure Orderbook where
  mid : ℚ
  bestBid : ℚ
  bestAsk : ℚ
  spread : ℚ
  askDepth : ℚ
  bidDepth : ℚ
  asksEmpty : Bool
  bidsEmpty : Bool
deriving DecidableEq, Repr

/-- Outcome of a real order placed through the external CLOB client,
together with the later `verifyOrder` answer.  `none` at a use site
means paper-trading mode (no live client). -/
structure LiveResult where
  success : Bool
  execPrice : ℚ
  matched : Bool
deriving DecidableEq, Repr

structure Fill where
  execPrice : ℚ
  midPrice : ℚ
  slippage : ℚ
  spreadCost : ℚ
deriving DecidableEq, Repr

/-- `_simulateEntry` (lines 912-981).  Returns the fill (none = no fill),
the updated execution stats, and whether a placed order was cancelled
after failing fill verification. -/
def simulateEntry (stats : ExecStats) (live : Option LiveResult) (book : Option Orderbook)
    (betSize midPrice : ℚ) : Option Fill × ExecStats × Bool :=
  match live with
  | some result =>
    if result.success then
      if !result.matched then
        (none, { stats with failures := stats.failures + 1 }, true)
      else
        (some ⟨result.execPrice, midPrice, result.execPrice - midPrice, 0⟩,
         { stats with fills := stats.fills + 1 }, false)
    else (none, { stats with failures := stats.failures + 1 }, false)
  | none =>
    let spread := (book.map Orderbook.spread).getD (1/100)
    let askDepth := (book.map Orderbook.askDepth).getD 100
    if (match book with
        | some b => decide (b.askDepth = 0) && b.asksEmpty
        | none => false) then
      (none, stats, false)
    else
      let spreadCost := spread * SPREAD_COST_ENTRY
      let execPrice := midPrice + spreadCost
      let execPrice :=
        if SIZE_IMPACT_THRESHOLD < betSize ∧ 0 < askDepth then
          execPrice + (betSize - SIZE_IMPACT_THRESHOLD) * SIZE_IMPACT_FACTOR
        else execPrice
      let totalSlippage := execPrice - midPrice
      (some ⟨jsRound4 execPrice, midPrice, jsRound4 totalSlippage, jsRound4 spreadCost⟩,
       { stats with fills := stats.fills + 1,
                    totalSlippage := stats.totalSlippage + totalSlippage,
                    totalSpreadCost := stats.totalSpreadCost + spreadCost }, false)

inductive Side
  | UP | DOWN
deriving DecidableEq, Repr

def Side.str : Side → String
  | .UP => "UP"
  | .DOWN => "DOWN"

/-- An open position (the fields of the object pushed at lines 2219-2236
that the verified properties read). -/
structure Position where
  conditionId : Nat
  asset : String
  timeframe : Timeframe
  side : Side
  tokenId : Nat
  entryPrice : ℚ
  size : ℚ
  costBasis : ℚ
  endDate : Option ℚ
  patternKey : String
deriving DecidableEq, Repr

/-- JS `Math.floor(position.size * 100) / 100`. -/
def floorShares (size : ℚ) : ℚ := (⌊size * 100⌋ : ℤ) / 100

/-- `_simulateExit` (lines 986-1072).  `none` means the exit did not
fill; the position must then stay open. -/
def simulateExit (stats : ExecStats) (live : Option LiveResult) (book : Option Orderbook)
    (pos : Position) (midPrice : ℚ) (now : ℚ) (isForced : Bool) : Option Fill × ExecStats :=
  match live with
  | some result =>
    let shares := floorShares pos.size
    if shares < 1 then (none, stats)
    else if result.success then
      if !result.matched then
        (none, { stats with failures := stats.failures + 1 })
      else
        (some ⟨result.execPrice, midPrice, midPrice - result.execPrice, 0⟩,
         { stats with fills := stats.fills + 1 })
    else (none, { stats with failures := stats.failures + 1 })
  | none =>
    let spread := (book.map Orderbook.spread).getD (1/100)
    let bidDepth := (book.map Orderbook.bidDepth).getD 100
    let secsToEnd : ℚ := match pos.endDate with
      | some e => (e - now) / 1000
      | none => 99999
    if ((match book with
        | some b => decide (b.bidDepth = 0) && b.bidsEmpty
        | none => false) && !isForced) then
      (none, { stats with failures := stats.failures + 1 })
    else
      let effectiveSpread := if secsToEnd < 15 then spread * LATE_EXIT_SPREAD_MULT else spread
      let spreadCost := effectiveSpread * SPREAD_COST_EXIT
      let execPrice := midPrice - spreadCost
      let posValue := pos.size * midPrice
      let execPrice :=
        if SIZE_IMPACT_THRESHOLD < posValue ∧ 0 < bidDepth then
          execPrice - (posValue - SIZE_IMPACT_THRESHOLD) * SIZE_IMPACT_FACTOR
        else execPrice
      let execPrice := max (1/1000) execPrice
      let totalSlippage := midPrice - execPrice
      (some ⟨jsRound4 execPrice, midPrice, jsRound4 totalSlippage, jsRound4 spreadCost⟩,
       { stats with fills := stats.fills + 1,
                    totalSlippage := stats.totalSlippage + totalSlippage,
                    totalSpreadCost := stats.totalSpreadCost + spreadCost })

/-! ### Engine state and the close path (scalper.js lines 1953-2004) -/

/-- The mutable engine state touched by the verified operations. -/
structure BotState where
  bankroll : ℚ
  positions : List Position
  dailyPnl : ℚ
  totalPnl : ℚ
  wins : Nat
  losses : Nat
  totalBets : Nat
  stats : ExecStats
  history : List ℚ
  probeResults : ProbeMap
  lastEntryTime : ℚ
deriving Repr

def reasonLiqForce : String := "LIQ-FORCE"
def reasonStop : String := "STOP"
def reasonWinResolve : String := "WIN-RESOLVE"
def reasonLossResolve : String := "LOSS-RESOLVE"

/-- Line 1956: the forced-close reasons. -/
def isForcedReason (r : String) : Bool :=
  r == reasonLiqForce || r == reasonStop || r == reasonWinResolve || r == reasonLossResolve

/-- One element of the `toClose` list built by `_managePositions`. -/
structure CloseCmd where
  index : Nat
  reason : String
  exitPrice : ℚ
  pnl : ℚ
deriving DecidableEq, Repr

/-- External inputs consumed while processing one close: the live-order
outcome (none = paper mode), the cached orderbook, and the clock. -/
structure ExitEnv where
  live : Option LiveResult
  book : Option Orderbook
  now : ℚ

/-- Line 1969: `exitSim ? exitSim.execPrice : c.exitPrice`. -/
def closeExitPrice (c : CloseCmd) (fill : Option Fill) : ℚ :=
  match fill with
  | some f => f.execPrice
  | none => c.exitPrice

/-- Line 1970: the realized P&L of a close. -/
def closePnl (pos : Position) (c : CloseCmd) (fill : Option Fill) : ℚ :=
  (closeExitPrice c fill - pos.entryPrice) * pos.size

/-- The bookkeeping once a close goes through (lines 1968-1993):
settle at the fill price (or the forced mid-price), restore
`costBasis + pnl` to the bankroll, update the win/loss counters with the
±$0.05 dead zone, and record the probe outcome as `pnl >= 0`. -/
def closeOut (s : BotState) (rest : List Position) (pos : Position) (c : CloseCmd)
    (fill : Option Fill) (stats : ExecStats) : BotState :=
  let pnl := closePnl pos c fill
  let costB := if pos.costBasis = 0 then PROBE_SIZE else pos.costBasis
  { s with
    positions := rest
    totalPnl := s.totalPnl + pnl
    dailyPnl := s.dailyPnl + pnl
    bankroll := s.bankroll + costB + pnl
    wins := if 1/20 < pnl then s.wins + 1 else s.wins
    losses := if 1/20 < pnl then s.losses else if pnl < -(1/20) then s.losses + 1 else s.losses
    probeResults :=
      if pos.patternKey ≠ "" then probeRecord s.probeResults pos.patternKey (decide (0 ≤ pnl))
      else s.probeResults
    history := pnl :: s.history
    stats := stats }

/-- Processing of a single `toClose` entry (lines 1954-1993): splice the
position out, attempt the exit, and either splice it back on a
non-forced fill failure or settle the close. -/
def processClose (s : BotState) (c : CloseCmd) (env : ExitEnv) : BotState :=
  match s.positions[c.index]? with
  | none => s
  | some pos =>
    let rest := s.positions.eraseIdx c.index
    let isForced := isForcedReason c.reason
    let (fill, stats2) := simulateExit s.stats env.live env.book pos c.exitPrice env.now isForced
    match fill with
    | none =>
      if !isForced then
        { s with positions := (rest.insertIdx c.index pos : List Position)
                 stats := { stats2 with failures := stats2.failures + 1 } }
      else closeOut s rest pos c none stats2
    | some f => closeOut s rest pos c (some f) stats2

/-! ### Conviction-tiered bet sizing (scalper.js lines 104-111, 1211-1236) -/

structure BetTier where
  name : String
  minConv : ℚ
  maxConv : ℚ
  minWR : ℚ
  pctMin : ℚ
  pctMax : ℚ
  fixed : ℚ
deriving DecidableEq, Repr

def tierSCOUT : BetTier :=
  { name := "SCOUT", minConv := 0, maxConv := 3/10, minWR := 0, pctMin := 0, pctMax := 0, fixed := PROBE_SIZE }
def tierSMALL : BetTier :=
  { name := "SMALL", minConv := 3/10, maxConv := 1/2, minWR := 0, pctMin := 3/20, pctMax := 7/20, fixed := 0 }
def tierMEDIUM : BetTier :=
  { name := "MEDIUM", minConv := 1/2, maxConv := 7/10, minWR := 0, pctMin := 7/20, pctMax := 3/5, fixed := 0 }
def tierHIGH : BetTier :=
  { name := "HIGH", minConv := 7/10, maxConv := 17/20, minWR := 0, pctMin := 3/5, pctMax := 17/20, fixed := 0 }
def tierAGGRESSIVE : BetTier :=
  { name := "AGGRESSIVE", minConv := 17/20, maxConv := 19/20, minWR := 0, pctMin := 17/20, pctMax := 49/50, fixed := 0 }
def tierALLIN : BetTier :=
  { name := "ALL-IN", minConv := 19/20, maxConv := 1, minWR := 0, pctMin := 9/10, pctMax := 49/50, fixed := 0 }

def BET_TIERS : List BetTier :=
  [tierSCOUT, tierSMALL, tierMEDIUM, tierHIGH, tierAGGRESSIVE, tierALLIN]

/-- `_calculateBetSize(conviction, probeRecord, bankroll)`: pick the tier
band, interpolate the bankroll percentage inside it, floor at $1, cap at
98% of bankroll and round to cents.  Returns the bet and the tier name. -/
def calculateBetSize (conviction bankroll : ℚ) : ℚ × String :=
  let tier := (BET_TIERS.find? (fun t =>
    decide (t.minConv ≤ conviction) && decide (conviction < t.maxConv))).getD tierSCOUT
  let tier := if (19/20 : ℚ) ≤ conviction then tierALLIN else tier
  let betSize :=
    if 0 < tier.fixed then tier.fixed
    else
      let range := tier.maxConv - tier.minConv
      let pos := if 0 < range then (conviction - tier.minConv) / range else 1/2
      let pctOfBankroll := tier.pctMin + pos * (tier.pctMax - tier.pctMin)
      bankroll * pctOfBankroll
  let betSize := max PROBE_SIZE (min betSize (bankroll * (49/50)))
  (jsRound2 betSize, tier.name)

/-! ### Entry scanner (scalper.js lines 2010-2269) -/

def ONLY_BTC : Bool := true
def assetBTC : String := "BTC"
def tierNamePROBE : String := "PROBE"
def suffixMANUAL : String := "-MANUAL"
def suffixAUTO : String := "-AUTO"

def ENTRY_BUFFER_BY_TF : Timeframe → ℚ
  | m5 => 150 | m15 => 420 | h1 => 1200 | h4 => 3600 | d1 => 72000

/-- An active market as held in `this.markets`. -/
structure Market where
  conditionId : Nat
  asset : String
  timeframe : Timeframe
  upToken : Option Nat
  downToken : Option Nat
  gammaUpPrice : ℚ
  gammaDownPrice : ℚ
  endDate : Option ℚ
  totalSecs : ℚ
  secsLeft : ℚ
deriving DecidableEq, Repr

/-- `market.endDate ? (market.endDate - now) / 1000 : 99999` (line 2036). -/
def marketSecsLeft (m : Market) (now : ℚ) : ℚ :=
  match m.endDate with
  | some e => (e - now) / 1000
  | none => 99999

def hasPosOnCondition (ps : List Position) (cid : Nat) : Bool :=
  ps.any (fun p => p.conditionId == cid)

def hasPosOnPair (ps : List Position) (asset : String) (tf : Timeframe) : Bool :=
  ps.any (fun p => p.asset == asset && p.timeframe == tf)

/-- The outcome of the per-market selection pipeline of `_scanEntries`
(lines 2044-2190: signal, predictive/mean-reversion/standard side
choice, flip cooldown, MI gate, Kelly check, conviction and viability).
`none` models any of the `continue` paths in that range; a `some`
carries the chosen side/token/price, the adjusted conviction that feeds
`_calculateBetSize`, the volatility regime flag, the pattern key, and
the execution-environment inputs for `_simulateEntry`. -/
structure EntryDecision where
  side : Side
  tokenId : Nat
  entryPrice : ℚ
  conviction : ℚ
  volHigh : Bool
  patternKey : String
  live : Option LiveResult
  book : Option Orderbook

/-- The bet-size clamp chain of lines 2151-2172, starting from
`_calculateBetSize` and ending with the cents rounding. -/
def scannerBetSize (conviction : ℚ) (volHigh : Bool) (nPos : Nat) (bankroll : ℚ)
    (tf : Timeframe) : ℚ :=
  let (rawBet, tier) := calculateBetSize conviction bankroll
  let betSize := if volHigh && !(tier == tierNamePROBE) then max PROBE_SIZE (rawBet * (1/2)) else rawBet
  let openSlots : Nat := max 1 (MAX_POSITIONS - nPos)
  let maxPerSlot := if 1 < openSlots then max PROBE_SIZE (bankroll / (openSlots : ℚ)) else bankroll * (49/50)
  let betSize := min betSize (min maxPerSlot (bankroll * (49/50)))
  let betSize := min betSize (if tf = m5 then MAX_5M_BET else MAX_SINGLE_BET)
  let betSize := max PROBE_SIZE betSize
  jsRound2 betSize

/-- The position push of lines 2213-2238 after a verified entry fill. -/
def scanOpen (s : BotState) (m : Market) (d : EntryDecision) (betSize execPrice now : ℚ)
    (stats : ExecStats) : BotState :=
  { s with
    bankroll := max 0 (s.bankroll - betSize)
    positions := s.positions ++ [{
      conditionId := m.conditionId
      asset := m.asset
      timeframe := m.timeframe
      side := d.side
      tokenId := d.tokenId
      entryPrice := execPrice
      size := betSize / execPrice
      costBasis := betSize
      endDate := m.endDate
      patternKey := d.patternKey }]
    totalBets := s.totalBets + 1
    lastEntryTime := now
    stats := stats }

/-- The market loop of `_scanEntries` (lines 2027-2268).  Each market is
paired with its selection outcome; the structural guards (position cap,
bankroll floor, BTC filter, time buffers, duplicate checks, the final
race-condition cap check, and the no-fill handling) are concrete. -/
def scanLoop (s : BotState) (markets : List (Market × Option EntryDecision)) (now : ℚ) :
    BotState × Nat :=
  match markets with
  | [] => (s, 0)
  | (m, dec) :: rest =>
    if MAX_POSITIONS ≤ s.positions.length then (s, 0)
    else if s.bankroll < PROBE_SIZE then (s, 0)
    else if ONLY_BTC && !(m.asset == assetBTC) then scanLoop s rest now
    else if marketSecsLeft m now < MIN_ENTRY_SECS then scanLoop s rest now
    else if marketSecsLeft m now < ENTRY_BUFFER_BY_TF m.timeframe then scanLoop s rest now
    else if hasPosOnCondition s.positions m.conditionId then scanLoop s rest now
    else if hasPosOnPair s.positions m.asset m.timeframe then scanLoop s rest now
    else
      match dec with
      | none => scanLoop s rest now
      | some d =>
        if MAX_POSITIONS ≤ s.positions.length then (s, 0)
        else
          let betSize := scannerBetSize d.conviction d.volHigh s.positions.length s.bankroll m.timeframe
          match simulateEntry s.stats d.live d.book betSize d.entryPrice with
          | (none, stats2, _) =>
            scanLoop { s with stats := { stats2 with failures := stats2.failures + 1 } } rest now
          | (some f, stats2, _) =>
            let s2 := scanOpen s m d betSize f.execPrice now stats2
            let (s3, n) := scanLoop s2 rest now
            (s3, n + 1)

/-- `_scanEntries` (lines 2010-2023 guards, then the market loop):
position cap, bankroll floor, daily loss limit, model health, and the
post-entry cooldown lock. -/
def scanEntries (s : BotState) (markets : List (Market × Option EntryDecision)) (now : ℚ) :
    BotState × Nat :=
  if MAX_POSITIONS ≤ s.positions.length then (s, 0)
  else if s.bankroll < PROBE_SIZE then (s, 0)
  else if s.dailyPnl ≤ -DAILY_LOSS_LIMIT then (s, 0)
  else if !checkModelHealth s.history then (s, 0)
  else if s.lastEntryTime ≠ 0 ∧ now - s.lastEntryTime < ENTRY_LOCK_MS then (s, 0)
  else scanLoop s markets now

/-! ### Manual trade (scalper.js lines 2272-2357) -/

inductive ManualResult
  | err
  | ok
deriving DecidableEq, Repr

def tfPriority : List Timeframe := [d1, h4, h1, m15, m5]

/-- The market lookup of lines 2279-2284: prefer daily, then the longest
remaining timeframe, requiring more than 60 seconds left. -/
def manualFindMarket (markets : List Market) (asset : String) : Option Market :=
  tfPriority.findSome? (fun tf =>
    markets.find? (fun m => m.asset == asset && m.timeframe == tf && decide (60 < m.secsLeft)))

/-- `manualTrade(asset, side, betSize)` — force-opens a position.  The
side has already been validated (it is typed); every other guard of
lines 2275-2299 is concrete.  Note that no position-cap and no
duplicate-position check appears anywhere on this path. -/
def manualTrade (s : BotState) (markets : List Market) (asset : String) (side : Side)
    (betSize : ℚ) (orderbooks : Nat → Option Orderbook) (live : Option LiveResult) :
    BotState × ManualResult :=
  if betSize < 1 then (s, .err)
  else if s.bankroll < betSize then (s, .err)
  else
    match manualFindMarket markets asset with
    | none => (s, .err)
    | some market =>
      match (match side with | .UP => market.upToken | .DOWN => market.downToken) with
      | none => (s, .err)
      | some tokenId =>
        let gammaPrice := match side with
          | .UP => market.gammaUpPrice
          | .DOWN => market.gammaDownPrice
        let clobBook := orderbooks tokenId
        let entryPrice := match clobBook with
          | some b => if 0 < b.mid then b.mid else gammaPrice
          | none => gammaPrice
        if entryPrice ≤ 0 ∨ 1 ≤ entryPrice then (s, .err)
        else
          match simulateEntry s.stats live clobBook betSize entryPrice with
          | (none, stats2, _) => ({ s with stats := stats2 }, .err)
          | (some f, stats2, _) =>
            ({ s with
               bankroll := max 0 (s.bankroll - betSize)
               positions := s.positions ++ [{
                 conditionId := market.conditionId
                 asset := asset
                 timeframe := market.timeframe
                 side := side
                 tokenId := tokenId
                 entryPrice := f.execPrice
                 size := betSize / f.execPrice
                 costBasis := betSize
                 endDate := market.endDate
                 patternKey := asset ++ "-" ++ side.str ++ suffixMANUAL }]
               totalBets := s.totalBets + 1
               stats := stats2 }, .ok)

/-! ### Daily auto-entry (scalper.js lines 2374-2496) -/

/-- `market.endDate ? (market.endDate - now) / 1000 : 0` (line 2396 —
note the 0 default, unlike the scanner). -/
def autoSecsLeft (m : Market) (now : ℚ) : ℚ :=
  match m.endDate with
  | some e => (e - now) / 1000
  | none => 0

/-- The `sort((a, b) => b.secsLeft - a.secsLeft)` followed by `[0]`:
the first candidate with the most seconds left. -/
def pickLongest : List Market → ℚ → Option Market
  | [], _ => none
  | m :: rest, now =>
    match pickLongest rest now with
    | none => some m
    | some best => if autoSecsLeft m now < autoSecsLeft best now then some best else some m

/-- The candidate filter of lines 2392-2400: BTC daily markets with at
least 20 hours of runway and no open position on the same condition. -/
def autoCandidates (s : BotState) (markets : List Market) (now : ℚ) : List Market :=
  markets.filter (fun m =>
    m.asset == assetBTC && m.timeframe == Timeframe.d1 &&
    decide (20 * 3600 ≤ autoSecsLeft m now) &&
    !(hasPosOnCondition s.positions m.conditionId))

/-- The cheapest-side choice of lines 2422-2430. -/
def autoChoice (market : Market) : Option (Side × Option Nat × ℚ) :=
  if 0 < market.gammaUpPrice ∧ 0 < market.gammaDownPrice ∧
      market.gammaUpPrice ≤ market.gammaDownPrice then
    some (.UP, market.upToken, market.gammaUpPrice)
  else if 0 < market.gammaDownPrice then
    some (.DOWN, market.downToken, market.gammaDownPrice)
  else none

/-- The execution-and-push tail of lines 2450-2477. -/
def autoOpen (s : BotState) (market : Market) (side : Side) (tokenId : Nat)
    (entryPrice betSize now : ℚ) (clobBook : Option Orderbook) (live : Option LiveResult) :
    BotState × Nat :=
  match simulateEntry s.stats live clobBook betSize entryPrice with
  | (none, stats2, _) => ({ s with stats := stats2 }, 0)
  | (some f, stats2, _) =>
    ({ s with
       bankroll := max 0 (s.bankroll - betSize)
       positions := s.positions ++ [{
         conditionId := market.conditionId
         asset := market.asset
         timeframe := market.timeframe
         side := side
         tokenId := tokenId
         entryPrice := f.execPrice
         size := betSize / f.execPrice
         costBasis := betSize
         endDate := market.endDate
         patternKey := market.asset ++ "-" ++ side.str ++ suffixAUTO }]
       totalBets := s.totalBets + 1
       lastEntryTime := now
       stats := stats2 }, 1)

/-- `_autoEntryDailyInner` (lines 2374-2496): buy the cheapest side of
the BTC daily market with the most runway.  There is no daily-loss-limit
and no model-health check on this path. -/
def autoEntryDailyInner (s : BotState) (markets : List Market) (now : ℚ)
    (orderbooks : Nat → Option Orderbook) (live : Option LiveResult) : BotState × Nat :=
  if s.bankroll < 1 then (s, 0)
  else if MAX_POSITIONS ≤ s.positions.length then (s, 0)
  else if s.lastEntryTime ≠ 0 ∧ now - s.lastEntryTime < ENTRY_LOCK_MS then (s, 0)
  else
    match pickLongest (autoCandidates s markets now) now with
    | none => (s, 0)
    | some market =>
      if market.gammaUpPrice = 0 ∧ market.gammaDownPrice = 0 then (s, 0)
      else
        match autoChoice market with
        | none => (s, 0)
        | some (side, tokenOpt, gammaPrice) =>
          match tokenOpt with
          | none => (s, 0)
          | some tokenId =>
            if gammaPrice = 0 then (s, 0)
            else
              let clobBook := orderbooks tokenId
              let entryPrice := match clobBook with
                | some b => if 0 < b.mid then b.mid else gammaPrice
                | none => gammaPrice
              if entryPrice ≤ 0 ∨ (17/20 : ℚ) ≤ entryPrice then (s, 0)
              else if entryPrice < (1/20 : ℚ) then (s, 0)
              else
                let betSize := jsRound2 (min (s.bankroll * (49/50)) (s.bankroll - 1/100))
                let betSize := min betSize MAX_SINGLE_BET
                if betSize < 1 then (s, 0)
                else if MAX_POSITIONS ≤ s.positions.length then (s, 0)
                else autoOpen s market side tokenId entryPrice betSize now clobBook live

/-! ### Per-position exit decision (scalper.js lines 1613-1951) -/

/-- Result of `_getPriceSupport(pos)` (lines 528-569).  The probability
blend calls the Black–Scholes model on live feed data, so the record
enters the exit decision as an input; `supports` is its derived field
`probability > 0.55`. -/
structure Support where
  probability : ℚ
  distance : ℚ
  directionMatch : Bool
  cryptoNow : ℚ
deriving DecidableEq, Repr

def Support.supports (sp : Support) : Bool := decide ((11/20 : ℚ) < sp.probability)

/-- The chart sub-result of `this._mi.analyzeExit`. -/
structure MIChart where
  holdSignal : Bool
  confidence : ℚ
deriving DecidableEq, Repr

/-- Result of `this._mi.analyzeExit` (market-intelligence.js), an input
to the exit cascade. -/
structure MIExit where
  exitNow : Bool
  reason : String
  holdThrough : Bool
  chart : Option MIChart
deriving DecidableEq, Repr

def chartExitTag : String := "chart-exit:"
def reasonSalvageSigma : String := "SALVAGE-SIGMA"
def reasonSalvageLast : String := "SALVAGE-LAST"
def reasonLiqSafe : String := "LIQ-SAFE"
def reasonProfit1d : String := "PROFIT-1D-45%"
def reasonDead1d : String := "DEAD-1D-2c"
def reasonPredExit : String := "PRED-EXIT"
def reasonProfit : String := "PROFIT"
def reasonTrailWide : String := "TRAIL-WIDE"
def reasonTrail : String := "TRAIL"
def reasonFlip : String := "FLIP"
def reasonStale : String := "STALE"
def miPrefixTag : String := "MI-"

/-- Everything the per-position exit cascade reads: the position fields,
the current token price, the clock, and the upstream analysis results
(price support, predictive edge, market intelligence, momentum signal).
`oneSigmaMove` is `(support.cryptoNow || 0) * sigma * Math.sqrt(T)` from
lines 1648-1650 — it involves a square root, so it enters as an input. -/
structure ExitCtx where
  tf : Timeframe
  sideIsUp : Bool
  entryPrice : ℚ
  size : ℚ
  costBasis : ℚ
  peakGain : ℚ
  targetProfit : ℚ
  hasEndDate : Bool
  secsToEnd : ℚ
  holdAge : ℚ
  cp : ℚ
  now : ℚ
  openedAt : ℚ
  latencyHoldTs : Option ℚ
  entryReasonHasPRED : Bool
  support : Support
  oneSigmaMove : ℚ
  predCatchingUp : Bool
  miExit : MIExit
  sigDirection : ℤ
  sigStrength : ℚ
deriving Repr

/-- The exit selected for one open position. -/
structure ExitChoice where
  reason : String
  exitPrice : ℚ
  pnl : ℚ
deriving DecidableEq, Repr

/-- Lines 1651-1652: standard deviations of underlying movement needed
to recover, zero when the underlying already moves with the position. -/
def sigmasNeededOf (ctx : ExitCtx) : ℚ :=
  if 0 < ctx.oneSigmaMove ∧ 0 < ctx.support.distance ∧ ctx.support.directionMatch = false then
    ctx.support.distance / ctx.oneSigmaMove
  else 0

/-- The per-position body of `_managePositions` (lines 1617-1951):
resolution, the 5m hold-to-resolution window, the forced liquidity-exit
zone, sigma salvage, the long-timeframe never-sell-at-a-loss gate, the
1d diamond-hands block, predictive exit, market-intelligence exit,
profit target, trailing stop, flip signal, adaptive stop loss and the
staleness cleanup — in source order, first match wins.  `none` = hold. -/
def decideExit (ctx : ExitCtx) : Option ExitChoice :=
  let unrealized := (ctx.cp - ctx.entryPrice) * ctx.size
  let peakGain := if ctx.peakGain = 0 ∨ ctx.peakGain < unrealized then unrealized else ctx.peakGain
  let longTF := isLongTF ctx.tf
  let canHoldDips := HOLD_THROUGH_DIPS ctx.tf
  if ctx.hasEndDate ∧ ctx.secsToEnd ≤ 0 then
    let resolved := ctx.support.supports && decide ((1/2 : ℚ) < ctx.support.probability)
    let resolvePrice : ℚ := if resolved then 19/20 else 1/20
    some ⟨if resolved then reasonWinResolve else reasonLossResolve, resolvePrice,
      (resolvePrice - ctx.entryPrice) * ctx.size⟩
  else
    let minsLeft := ctx.secsToEnd / 60
    let sigmasNeeded := sigmasNeededOf ctx
    let forceExit := FORCE_EXIT_BY_TF ctx.tf
    if ctx.tf = m5 ∧ 0 < ctx.secsToEnd ∧ ctx.secsToEnd < 120 ∧ (11/20 : ℚ) < ctx.cp then none
    else if ctx.tf = m5 ∧ 0 < ctx.secsToEnd ∧ ctx.secsToEnd < 120 ∧ ctx.cp < (1/10 : ℚ) then none
    else if ctx.secsToEnd < forceExit ∧ 0 < ctx.secsToEnd then
      if (longTF ∨ ctx.tf = m5) ∧ ctx.support.supports = true ∧ (11/20 : ℚ) < ctx.support.probability then
        none
      else if longTF ∧ ctx.cp < (3/100 : ℚ) then none
      else some ⟨reasonLiqForce, ctx.cp, unrealized - |unrealized| * SLIPPAGE_PENALTY⟩
    else if longTF ∧ unrealized ≤ 0 ∧ 0 < sigmasNeeded ∧
        4 < sigmasNeeded ∧ minsLeft < 60 ∧ (3/100 : ℚ) < ctx.cp then
      some ⟨reasonSalvageSigma, ctx.cp, unrealized⟩
    else if longTF ∧ unrealized ≤ 0 ∧ 0 < sigmasNeeded ∧
        3 < sigmasNeeded ∧ minsLeft < 30 ∧ (3/100 : ℚ) < ctx.cp then
      some ⟨reasonSalvageSigma, ctx.cp, unrealized⟩
    else if longTF ∧ unrealized ≤ 0 ∧ 0 < sigmasNeeded ∧
        2 < sigmasNeeded ∧ minsLeft < 15 ∧ (1/20 : ℚ) < ctx.cp then
      some ⟨reasonSalvageLast, ctx.cp, unrealized⟩
    else if longTF ∧ unrealized ≤ 0 ∧ 0 < sigmasNeeded ∧ ctx.cp < (3/100 : ℚ) then none
    else if longTF ∧ 0 < ctx.secsToEnd ∧ 0 < unrealized ∧
        ctx.secsToEnd < LIQUIDITY_EXIT_BY_TF ctx.tf ∧
        ctx.support.supports = true ∧ (3/4 : ℚ) < ctx.support.probability then none
    else if longTF ∧ 0 < ctx.secsToEnd ∧ 0 < unrealized ∧
        ctx.secsToEnd < LIQUIDITY_EXIT_BY_TF ctx.tf then
      some ⟨reasonLiqSafe, ctx.cp, unrealized⟩
    else if longTF ∧ unrealized ≤ 0 then none
    else if ctx.tf = d1 then
      let pctGain := unrealized / (if ctx.costBasis = 0 then 1 else ctx.costBasis)
      if (9/20 : ℚ) ≤ pctGain then some ⟨reasonProfit1d, ctx.cp, unrealized⟩
      else if ctx.cp ≤ (1/50 : ℚ) then some ⟨reasonDead1d, ctx.cp, unrealized⟩
      else none
    else if ctx.entryReasonHasPRED ∧ ctx.predCatchingUp ∧ 0 < unrealized then
      some ⟨reasonPredExit, ctx.cp, unrealized⟩
    else
      let isChartExit := ctx.miExit.reason.startsWith chartExitTag
      let chartConf : ℚ := match ctx.miExit.chart with
        | some ch => ch.confidence
        | none => 0
      let chartPresent := ctx.miExit.chart.isSome
      if ctx.miExit.exitNow = true ∧ unrealized ≠ 0 ∧ isChartExit = true ∧
          chartPresent = true ∧ (3/5 : ℚ) < chartConf then
        some ⟨ctx.miExit.reason, ctx.cp, unrealized⟩
      else if ctx.miExit.exitNow = true ∧ unrealized ≠ 0 ∧
          ¬(canHoldDips = true ∧ ctx.support.supports = true ∧ (13/20 : ℚ) < ctx.support.probability) then
        some ⟨miPrefixTag ++ ctx.miExit.reason, ctx.cp, unrealized⟩
      else
        let chartHold := match ctx.miExit.chart with
          | some ch => ch.holdSignal && decide ((9/20 : ℚ) < ch.confidence)
          | none => false
        let targetProfit := if ctx.targetProfit = 0 then ctx.costBasis * PROFIT_TARGET_BY_TF ctx.tf
          else ctx.targetProfit
        if targetProfit ≤ unrealized ∧
            ¬(longTF ∧ (chartHold = true ∨ ((7/10 : ℚ) < ctx.support.probability ∧
              unrealized < targetProfit * (5/2)))) then
          some ⟨reasonProfit, ctx.cp, unrealized⟩
        else
          let trailLock := TRAILING_LOCK_BY_TF ctx.tf
          if (3/200 : ℚ) < peakGain ∧ unrealized < peakGain * trailLock ∧
              canHoldDips = true ∧
              (chartHold = true ∨ (ctx.support.supports = true ∧ (3/5 : ℚ) < ctx.support.probability)) ∧
              unrealized < peakGain * (if ctx.tf = d1 ∨ ctx.tf = h4 then (1/20 : ℚ) else (1/10 : ℚ)) then
            some ⟨reasonTrailWide, ctx.cp, unrealized⟩
          else if (3/200 : ℚ) < peakGain ∧ unrealized < peakGain * trailLock ∧
              ¬(canHoldDips = true ∧
                (chartHold = true ∨ (ctx.support.supports = true ∧ (3/5 : ℚ) < ctx.support.probability))) ∧
              ctx.miExit.holdThrough = true ∧ unrealized < peakGain * (1/10) then
            some ⟨reasonTrailWide, ctx.cp, unrealized⟩
          else if (3/200 : ℚ) < peakGain ∧ unrealized < peakGain * trailLock ∧
              ¬(canHoldDips = true ∧
                (chartHold = true ∨ (ctx.support.supports = true ∧ (3/5 : ℚ) < ctx.support.probability))) ∧
              ctx.miExit.holdThrough = false then
            some ⟨reasonTrail, ctx.cp, unrealized⟩
          else
            let rev := (ctx.sideIsUp = true ∧ ctx.sigDirection < 0 ∧ (3/5 : ℚ) < ctx.sigStrength) ∨
              (ctx.sideIsUp = false ∧ 0 < ctx.sigDirection ∧ (3/5 : ℚ) < ctx.sigStrength)
            let flipMinAge : ℚ := match ctx.tf with
              | d1 => 300 | h4 => 180 | h1 => 120 | _ => 30
            if rev ∧ unrealized < (1/200 : ℚ) ∧ flipMinAge < ctx.holdAge ∧
                ¬(canHoldDips = true ∧ ctx.support.supports = true) then
              some ⟨reasonFlip, ctx.cp, unrealized⟩
            else
              let baseStop := STOP_LOSS_BY_TF ctx.tf
              let effectiveStop :=
                if ctx.support.supports = true ∧ (7/10 : ℚ) < ctx.support.probability then
                  baseStop * (3/2)
                else if ctx.support.supports = false ∧ ctx.support.probability < (2/5 : ℚ) then
                  baseStop * (7/10)
                else baseStop
              if ctx.cp < ctx.entryPrice * (1 - effectiveStop) ∧
                  ¬(canHoldDips = true ∧ ctx.support.directionMatch = true) then
                some ⟨reasonStop, ctx.cp, unrealized⟩
              else if ctx.cp < ctx.entryPrice * (1 - effectiveStop) ∧
                  canHoldDips = true ∧ ctx.support.directionMatch = true ∧
                  (match ctx.latencyHoldTs with
                   | some ts => decide (LATENCY_DELAY_MS < ctx.now - ts)
                   | none => false) = true then
                some ⟨reasonStop, ctx.cp, unrealized⟩
              else if longTF = false ∧ STALE_BY_TF ctx.tf < ctx.now - ctx.openedAt ∧
                  |unrealized| < (1/200 : ℚ) then
                some ⟨reasonStale, ctx.cp, unrealized⟩
              else none

/-! ### Tick re-entrancy guard (scalper.js lines 1352-1481) -/

/-- The guard-relevant slice of engine state for the two tick loops. -/
structure TickGuard where
  running : Bool
  ticking : Bool
  marketsEmpty : Bool
  tickCount : Nat
deriving DecidableEq, Repr

inductive TickOutcome
  | skipped
  | completed
  | threw
deriving DecidableEq, Repr

/-- `tick()` (lines 1352-1433): sets `_ticking`, runs the body inside
`try / catch / finally`, and the `finally` clears `_ticking` whether or
not the body threw.  `bodyThrows` abstracts an exception anywhere in the
tick body. -/
def tick (g : TickGuard) (bodyThrows : Bool) : TickGuard × TickOutcome :=
  if !g.running then (g, .skipped)
  else if g.ticking then (g, .skipped)
  else if g.marketsEmpty then ({ g with ticking := false }, .skipped)
  else
    let g := { g with ticking := true, tickCount := g.tickCount + 1 }
    ({ g with ticking := false }, if bodyThrows then .threw else .completed)

/-- `fastTick()` (lines 1439-1481): sets `_ticking`, runs the body with
no `try / catch`, and clears `_ticking` only on the final line.  When
the body throws, the exception propagates to the caller (which logs it)
and the clearing line never runs. -/
def fastTick (g : TickGuard) (bodyThrows : Bool) : TickGuard × TickOutcome :=
  if !g.running || g.marketsEmpty then (g, .skipped)
  else if g.ticking then (g, .skipped)
  else
    let g := { g with ticking := true, tickCount := g.tickCount + 1 }
    if bodyThrows then (g, .threw)
    else ({ g with ticking := false }, .completed)

/-! ### State-machine step relation and invariants -/

def spreadOf (book : Option Orderbook) : ℚ := (book.map Orderbook.spread).getD (1/100)

/-- Sanity of the external execution inputs riding on an entry decision:
quoted prices and spreads are nonnegative. -/
def GoodDecision (d : EntryDecision) : Prop :=
  (∀ lr, d.live = some lr → 0 ≤ lr.execPrice) ∧
  (d.live = none → 0 ≤ d.entryPrice ∧ 0 ≤ spreadOf d.book)

/-- Structural invariant of an open position created by any of the three
entry paths: nonnegative share count, and `costBasis` equal to
`entryPrice * size` (a zero execution price degenerates to zero shares). -/
def GoodPos (p : Position) : Prop :=
  0 ≤ p.size ∧ (p.costBasis = p.entryPrice * p.size ∨ (0 ≤ p.costBasis ∧ p.size = 0))

def GoodState (s : BotState) : Prop :=
  0 ≤ s.bankroll ∧ ∀ p ∈ s.positions, GoodPos p

/-- One state-mutating operation of the engine, with the sanity
hypotheses that all externally quoted prices are nonnegative. -/
inductive BotStep : BotState → BotState → Prop
  | scan (s : BotState) (markets : List (Market × Option EntryDecision)) (now : ℚ)
      (h : ∀ md ∈ markets, ∀ d, md.2 = some d → GoodDecision d) :
      BotStep s (scanEntries s markets now).1
  | close (s : BotState) (c : CloseCmd) (env : ExitEnv)
      (hc : 0 ≤ c.exitPrice)
      (hl : ∀ lr, env.live = some lr → 0 ≤ lr.execPrice) :
      BotStep s (processClose s c env)
  | manual (s : BotState) (markets : List Market) (asset : String) (side : Side)
      (betSize : ℚ) (orderbooks : Nat → Option Orderbook) (live : Option LiveResult)
      (hl : ∀ lr, live = some lr → 0 ≤ lr.execPrice)
      (hb : ∀ t, 0 ≤ spreadOf (orderbooks t)) :
      BotStep s (manualTrade s markets asset side betSize orderbooks live).1
  | auto (s : BotState) (markets : List Market) (now : ℚ)
      (orderbooks : Nat → Option Orderbook) (live : Option LiveResult)
      (hl : ∀ lr, live = some lr → 0 ≤ lr.execPrice)
      (hb : ∀ t, 0 ≤ spreadOf (orderbooks t)) :
      BotStep s (autoEntryDailyInner s markets now orderbooks live).1

/-- At-most-one-per-market invariant: the global position cap and no two
open positions on the same `(asset, timeframe)` pair. -/
def PosInv (ps : List Position) : Prop :=
  ps.length ≤ MAX_POSITIONS ∧
  ps.Pairwise (fun p q => ¬(p.asset = q.asset ∧ p.timeframe = q.timeframe))

end Scalper

/-! ### Binary probability model (scalper.js lines 499-520), over `ℝ` -/

namespace Scalper

noncomputable section

open Real

/-- Abramowitz–Stegun coefficients of `_normalCDF` (lines 513-514). -/
def a1 : ℝ := 0.254829592
def a2 : ℝ := -0.284496736
def a3 : ℝ := 1.421413741
def a4 : ℝ := -1.453152027
def a5 : ℝ := 1.061405429

/-- The coefficient called `p` in `_normalCDF`. -/
def pcoef : ℝ := 0.3275911

/-- The Horner-form polynomial of line 518:
`(((((a5*t + a4)*t) + a3)*t + a2)*t + a1)*t`. -/
def hornerP (t : ℝ) : ℝ := ((((a5 * t + a4) * t + a3) * t + a2) * t + a1) * t

/-- `_normalCDF(x)` (lines 512-520). -/
def normalCDF (x : ℝ) : ℝ :=
  let sign : ℝ := if x < 0 then -1 else 1
  let ax := |x| / Real.sqrt 2
  let t := 1 / (1 + pcoef * ax)
  let y := 1 - hornerP t * Real.exp (-(ax * ax))
  (1/2) * (1 + sign * y)

def assetETH : String := "ETH"
def assetSOL : String := "SOL"

/-- `ANNUAL_VOL[asset] || 0.50` (line 37 and the lookups at 505). -/
def ANNUAL_VOL (asset : String) : ℝ :=
  if asset = assetBTC then 1/2
  else if asset = assetETH then 3/5
  else if asset = assetSOL then 4/5
  else 1/2

/-- `_binaryProbability(currentPrice, startPrice, secsRemaining, asset)`
(lines 501-509).  The JS guard `!currentPrice || !startPrice ||
startPrice <= 0` is falsiness on numbers. -/
def binaryProbability (currentPrice startPrice secsRemaining : ℝ) (asset : String) : ℝ :=
  if currentPrice = 0 ∨ startPrice = 0 ∨ startPrice ≤ 0 then 1/2
  else if secsRemaining ≤ 0 then (if startPrice < currentPrice then 99/100 else 1/100)
  else
    let T := secsRemaining / (365.25 * 24 * 3600)
    let sigma := ANNUAL_VOL asset
    let logRatio := Real.log (currentPrice / startPrice)
    let d2 := (logRatio + (-(1/2) * sigma * sigma) * T) / (sigma * Real.sqrt T)
    normalCDF d2

/-- Derivative of `hornerP` as a polynomial expression. -/
def qpoly (t : ℝ) : ℝ := a1 + 2 * a2 * t + 3 * a3 * t ^ 2 + 4 * a4 * t ^ 3 + 5 * a5 * t ^ 4

/-- The damped polynomial factor of `_normalCDF` as a function of
`ax = |x|/sqrt 2`: `hornerP(1/(1+p*ax)) * exp(-ax*ax)` (lines 517-518). -/
def Efun (u : ℝ) : ℝ := hornerP (1 / (1 + pcoef * u)) * Real.exp (-(u * u))

end

/-! ### Concrete fixtures used by the evaluation theorems -/

def emptyStats : ExecStats := ⟨0, 0, 0, 0⟩

def keyBullMid : String := "BTC-UP-bull-mid"

/-- A small open BTC 5m position. -/
def posBTC5m : Position :=
  { conditionId := 1, asset := assetBTC, timeframe := Timeframe.m5, side := Side.UP,
    tokenId := 7, entryPrice := 1/2, size := 2, costBasis := 1, endDate := none,
    patternKey := keyBullMid }

/-- A BTC 1d position as opened by the auto-entry path. -/
def posBTC1d : Position :=
  { conditionId := 11, asset := assetBTC, timeframe := Timeframe.d1, side := Side.UP,
    tokenId := 21, entryPrice := 2/5, size := 5, costBasis := 2, endDate := some 90000000,
    patternKey := keyBullMid }

/-- A minimal engine state: given bankroll, positions and daily P&L. -/
def stateWith (ps : List Position) (bank dp : ℚ) : BotState :=
  { bankroll := bank, positions := ps, dailyPnl := dp, totalPnl := 0, wins := 0,
    losses := 0, totalBets := 0, stats := emptyStats, history := [], probeResults := [],
    lastEntryTime := 0 }

/-- A live order report: placed successfully but never matched. -/
def liveUnmatched : LiveResult := { success := true, execPrice := 0, matched := false }

/-- A BTC 1d market with ample runway (`now = 0`, about 25 hours left). -/
def mktBTC1d : Market :=
  { conditionId := 11, asset := assetBTC, timeframe := Timeframe.d1, upToken := some 21,
    downToken := some 22, gammaUpPrice := 2/5, gammaDownPrice := 3/5,
    endDate := some 90000000, totalSecs := 86400, secsLeft := 90000 }

/-- An entry decision whose live buy order places but never matches. -/
def decUnmatched : EntryDecision :=
  { side := Side.UP, tokenId := 21, entryPrice := 2/5, conviction := 1/2,
    volHigh := false, patternKey := keyBullMid, live := some liveUnmatched, book := none }

/-- A 1d position down $0.30 on a $1.00 cost basis with 10 hours left
and the underlying moving with the position (spec example scenario 2). -/
def ctxDiamond : ExitCtx :=
  { tf := Timeframe.d1, sideIsUp := true, entryPrice := 1/2, size := 2, costBasis := 1,
    peakGain := 0, targetProfit := 0, hasEndDate := true, secsToEnd := 36000,
    holdAge := 3600, cp := 7/20, now := 0, openedAt := 0, latencyHoldTs := none,
    entryReasonHasPRED := false,
    support := { probability := 2/5, distance := 100, directionMatch := true,
                 cryptoNow := 60000 },
    oneSigmaMove := 300, predCatchingUp := false,
    miExit := { exitNow := false, reason := reasonFlat, holdThrough := false, chart := none },
    sigDirection := 0, sigStrength := 0 }

/-! ## Theorems -/

/-! ### Probe bookkeeping lemmas -/

theorem recordProbeResult_last (e : ProbeEntry) (won : Bool) :
    (recordProbeResult e won).results.getLast? = some won := by
  unfold recordProbeResult
  simp only
  by_cases h : PROBE_WINDOW < (e.results ++ [won]).length
  · rw [if_pos h]
    have hne : e.results ≠ [] := by
      intro he
      rw [he] at h
      simp [PROBE_WINDOW] at h
    obtain ⟨a, l, hal⟩ := List.exists_cons_of_ne_nil hne
    rw [hal]
    simp [List.getLast?_concat]
  · rw [if_neg h]
    simp [List.getLast?_concat]

theorem probeRecord_updated (m : ProbeMap) (key : String) (won : Bool) :
    ∃ e, probeLookup (probeRecord m key won) key = some e ∧
      e.results.getLast? = some won := by
  unfold probeRecord
  cases hfind : probeLookup m key with
  | none =>
    dsimp only
    unfold probeLookup at hfind ⊢
    have hf : m.find? (fun kv => kv.1 == key) = none := by
      cases hm : m.find? (fun kv => kv.1 == key) with
      | none => rfl
      | some kv => rw [hm] at hfind; simp at hfind
    rw [List.find?_append, hf]
    refine ⟨recordProbeResult ⟨0, 0, []⟩ won, ?_, recordProbeResult_last _ _⟩
    simp
  | some e =>
    dsimp only
    refine ⟨recordProbeResult e won, ?_, recordProbeResult_last _ _⟩
    unfold probeLookup at hfind ⊢
    induction m with
    | nil => simp at hfind
    | cons a l ih =>
      by_cases ha : (a.1 == key) = true
      · simp only [List.map_cons, if_pos ha]
        rw [List.find?_cons] at hfind
        simp only [ha] at hfind
        rw [List.find?_cons]
        dsimp only
        rw [ha]
        simp only [Option.map_some', Option.some.injEq] at hfind ⊢
        rw [hfind]
      · have ha2 : (a.1 == key) = false := eq_false_of_ne_true ha
        simp only [List.map_cons, if_neg ha]
        rw [List.find?_cons] at hfind
        simp only [ha2] at hfind
        rw [List.find?_cons]
        simp only [ha2]
        exact ih hfind

/-! ### Claim C10 -/

/-- C10: when a position closes, the `wins` counter increments only on
P&L above +$0.05 and `losses` only below -$0.05 (a close with |P&L| at
most $0.05 increments neither), yet the probe record for the position's
pattern always records an outcome and counts any P&L >= 0 — including
exactly 0 — as a win; a close with P&L in [0, $0.05] is thus recorded
as a probe win that appears in neither reported counter, so the
reported win rate and a pattern's proven status are computed from
different outcome sets. -/
theorem close_counters_diverge_from_probe
    (s : BotState) (rest : List Position) (pos : Position) (c : CloseCmd)
    (fill : Option Fill) (stats : ExecStats) (hkey : pos.patternKey ≠ "") :
    ((closeOut s rest pos c fill stats).wins =
      if (1/20 : ℚ) < closePnl pos c fill then s.wins + 1 else s.wins) ∧
    ((closeOut s rest pos c fill stats).losses =
      if closePnl pos c fill < -(1/20 : ℚ) then s.losses + 1 else s.losses) ∧
    (|closePnl pos c fill| ≤ (1/20 : ℚ) →
      (closeOut s rest pos c fill stats).wins = s.wins ∧
      (closeOut s rest pos c fill stats).losses = s.losses) ∧
    (∃ e, probeLookup (closeOut s rest pos c fill stats).probeResults pos.patternKey = some e ∧
      e.results.getLast? = some (decide (0 ≤ closePnl pos c fill))) ∧
    (0 ≤ closePnl pos c fill → closePnl pos c fill ≤ (1/20 : ℚ) →
      (closeOut s rest pos c fill stats).wins = s.wins ∧
      (closeOut s rest pos c fill stats).losses = s.losses ∧
      ∃ e, probeLookup (closeOut s rest pos c fill stats).probeResults pos.patternKey = some e ∧
        e.results.getLast? = some true) := by
  have habs : ∀ x : ℚ, |x| ≤ (1/20 : ℚ) → ¬((1/20 : ℚ) < x) ∧ ¬(x < -(1/20 : ℚ)) := by
    intro x hx
    rw [abs_le] at hx
    exact ⟨not_lt.2 hx.2, not_lt.2 hx.1⟩
  unfold closeOut closePnl
  refine ⟨?_, ?_, ?_, ?_, ?_⟩
  · simp only
  · simp only
    by_cases h1 : (1/20 : ℚ) < (closeExitPrice c fill - pos.entryPrice) * pos.size
    · rw [if_pos h1, if_neg (by linarith)]
    · rw [if_neg h1]
  · intro h
    obtain ⟨h1, h2⟩ := habs _ h
    simp only
    rw [if_neg h1, if_neg h1, if_neg h2]
    exact ⟨rfl, rfl⟩
  · simp only
    rw [if_pos hkey]
    exact probeRecord_updated _ _ _
  · intro h0 h1
    simp only
    rw [if_neg (not_lt.2 h1), if_neg (not_lt.2 h1), if_neg (not_lt.2 (by linarith)),
      if_pos hkey]
    refine ⟨rfl, rfl, ?_⟩
    have h2 := probeRecord_updated s.probeResults pos.patternKey
      (decide (0 ≤ (closeExitPrice c fill - pos.entryPrice) * pos.size))
    rw [decide_eq_true h0] at h2
    rw [decide_eq_true h0]
    exact h2

/-- C10 witness at a concrete close: P&L = $0.04 is recorded as a probe
win while the `wins` counter stays at 0. -/
theorem close_counters_diverge_from_probe_witness :
    posBTC5m.patternKey ≠ "" ∧
    (closeOut (stateWith [] 8 0) [] posBTC5m ⟨0, reasonProfit, 52/100, 1/25⟩
      (some ⟨52/100, 52/100, 0, 0⟩) emptyStats).wins = 0 := by
  constructor
  · decide
  · have h := close_counters_diverge_from_probe (stateWith [] 8 0) [] posBTC5m
      ⟨0, reasonProfit, 52/100, 1/25⟩ (some ⟨52/100, 52/100, 0, 0⟩) emptyStats (by decide)
    rw [h.1]
    norm_num [closePnl, closeExitPrice, posBTC5m, stateWith]

/-! ### Claim C9 -/

/-- C9: with fewer than 3 recorded observations, or under 30 seconds of
price history, the signal engine returns direction 0 and strength 0 —
a neutral flat signal — for both the raw signal and the boosted one. -/
theorem signal_cold_start_neutral (hist : List Obs) (now : ℚ) (ctx : SignalCtx)
    (h : hist.length < 3 ∨ ∀ h0, hist.head? = some h0 → (now - h0.ts) / 1000 < 30) :
    (getSignalRaw hist now).direction = 0 ∧ (getSignalRaw hist now).strength = 0 ∧
    (getSignal hist now ctx).direction = 0 ∧ (getSignal hist now ctx).strength = 0 := by
  have hraw : getSignalRaw hist now = signalFlat reasonNoData ∨
      getSignalRaw hist now = signalFlat reasonWarmingUp := by
    cases hist with
    | nil => left; rfl
    | cons h0 rest =>
      unfold getSignalRaw
      dsimp only
      by_cases hlen : (h0 :: rest).length < 3
      · left
        rw [if_pos hlen]
      · right
        rcases h with h | h
        · exact absurd h hlen
        · have hage : (now - h0.ts) / 1000 < 30 := h h0 rfl
          rw [if_neg hlen, if_pos hage]
  have hdir : (getSignalRaw hist now).direction = 0 := by
    rcases hraw with h' | h' <;> rw [h'] <;> rfl
  have hstr : (getSignalRaw hist now).strength = 0 := by
    rcases hraw with h' | h' <;> rw [h'] <;> rfl
  have hsig : getSignal hist now ctx = signalFlat reasonFlat := by
    unfold getSignal
    dsimp only
    rw [if_pos hdir]
  exact ⟨hdir, hstr, by rw [hsig]; rfl, by rw [hsig]; rfl⟩

/-- C9 witness: two observations 40 seconds apart are below the 3-sample
minimum, so the signal is flat. -/
theorem signal_cold_start_neutral_witness :
    (([⟨100, 1, 0⟩, ⟨101, 1, 40000⟩] : List Obs).length < 3 ∨
      ∀ h0, ([⟨100, 1, 0⟩, ⟨101, 1, 40000⟩] : List Obs).head? = some h0 →
        ((50000 : ℚ) - h0.ts) / 1000 < 30) ∧
    (getSignal [⟨100, 1, 0⟩, ⟨101, 1, 40000⟩] 50000 ⟨50, 0, 0, 0, 1, 0⟩).direction = 0 := by
  constructor
  · left
    decide
  · exact (signal_cold_start_neutral [⟨100, 1, 0⟩, ⟨101, 1, 40000⟩] 50000
      ⟨50, 0, 0, 0, 1, 0⟩ (Or.inl (by decide))).2.2.1

/-! ### Claim C2 -/

theorem insertIdx_eraseIdx_self {α : Type} :
    ∀ (l : List α) (i : Nat) (x : α), l[i]? = some x →
      (l.eraseIdx i).insertIdx i x = l
  | [], i, x, h => by simp at h
  | a :: l, 0, x, h => by
    simp only [List.getElem?_cons_zero, Option.some.injEq] at h
    simp [List.eraseIdx_cons_zero, List.insertIdx_zero, h]
  | a :: l, i + 1, x, h => by
    simp only [List.getElem?_cons_succ] at h
    simp [List.eraseIdx_cons_succ, List.insertIdx_succ_cons,
      insertIdx_eraseIdx_self l i x h]

/-- C2 (amended): an exit attempt that fails to fill leaves the open
set unchanged (same list, same order, bankroll untouched) and bumps the
failure counter — but only for the non-forced exit reasons; for the
forced reasons (LIQ-FORCE, STOP, WIN-RESOLVE, LOSS-RESOLVE) the
position is closed at the forced price even when the fill failed. -/
theorem exit_fill_failure_keeps_position (s : BotState) (c : CloseCmd) (env : ExitEnv)
    (pos : Position) (hpos : s.positions[c.index]? = some pos)
    (hfail : (simulateExit s.stats env.live env.book pos c.exitPrice env.now
      (isForcedReason c.reason)).1 = none) :
    (isForcedReason c.reason = false →
      (processClose s c env).positions = s.positions ∧
      (processClose s c env).bankroll = s.bankroll ∧
      (processClose s c env).stats.failures =
        (simulateExit s.stats env.live env.book pos c.exitPrice env.now
          (isForcedReason c.reason)).2.failures + 1) ∧
    (isForcedReason c.reason = true →
      (processClose s c env).positions = s.positions.eraseIdx c.index ∧
      (processClose s c env).bankroll = s.bankroll +
        (if pos.costBasis = 0 then PROBE_SIZE else pos.costBasis) +
        (c.exitPrice - pos.entryPrice) * pos.size) := by
  unfold processClose
  rw [hpos]
  dsimp only
  rcases hE : simulateExit s.stats env.live env.book pos c.exitPrice env.now
      (isForcedReason c.reason) with ⟨fill, st2⟩
  rw [hE] at hfail
  dsimp only at hfail
  subst hfail
  constructor
  · intro hf
    rw [hf]
    dsimp only
    refine ⟨?_, rfl, rfl⟩
    exact insertIdx_eraseIdx_self s.positions c.index pos hpos
  · intro hf
    rw [hf]
    dsimp only
    unfold closeOut closePnl closeExitPrice
    exact ⟨rfl, rfl⟩

/-- C2 witness: a live TRAIL exit (non-forced) whose sell order is not
matched leaves the open set exactly as it was. -/
theorem exit_fill_failure_keeps_position_witness :
    ((stateWith [posBTC5m] 8 0).positions[(0 : Nat)]? = some posBTC5m) ∧
    (simulateExit (stateWith [posBTC5m] 8 0).stats (some liveUnmatched) none posBTC5m
      (3/10) 0 (isForcedReason reasonTrail)).1 = none ∧
    (processClose (stateWith [posBTC5m] 8 0) ⟨0, reasonTrail, 3/10, 0⟩
      ⟨some liveUnmatched, none, 0⟩).positions = (stateWith [posBTC5m] 8 0).positions := by
  have h1 : (stateWith [posBTC5m] 8 0).positions[(0 : Nat)]? = some posBTC5m := by
    simp [stateWith]
  have h2 : (simulateExit (stateWith [posBTC5m] 8 0).stats (some liveUnmatched) none posBTC5m
      (3/10) 0 (isForcedReason reasonTrail)).1 = none := by
    norm_num [simulateExit, liveUnmatched, posBTC5m, stateWith, emptyStats, floorShares,
      isForcedReason, reasonTrail, reasonStop, reasonLiqForce, reasonWinResolve,
      reasonLossResolve]
  refine ⟨h1, h2, ?_⟩
  exact ((exit_fill_failure_keeps_position (stateWith [posBTC5m] 8 0)
    ⟨0, reasonTrail, 3/10, 0⟩ ⟨some liveUnmatched, none, 0⟩ posBTC5m h1 h2).1
    (by simp [isForcedReason, reasonTrail, reasonStop, reasonLiqForce, reasonWinResolve,
      reasonLossResolve])).1

/-- C2 counterexample: the claim as stated also covers stop-loss and
forced liquidity exits; at this concrete input a live STOP exit whose
sell order is not matched still removes the position from the open set. -/
theorem stop_exit_without_fill_removes_position :
    (simulateExit emptyStats (some liveUnmatched) none posBTC5m (3/10) 0
      (isForcedReason reasonStop)).1 = none ∧
    (processClose (stateWith [posBTC5m] 8 0)
      { index := 0, reason := reasonStop, exitPrice := 3/10, pnl := -2/5 }
      { live := some liveUnmatched, book := none, now := 0 }).positions = [] := by
  constructor
  · norm_num [simulateExit, liveUnmatched, posBTC5m, emptyStats, floorShares, isForcedReason,
      reasonStop, reasonLiqForce, reasonWinResolve, reasonLossResolve]
  · norm_num [processClose, stateWith, posBTC5m, simulateExit, liveUnmatched, emptyStats,
      floorShares, isForcedReason, reasonStop, reasonLiqForce, reasonWinResolve,
      reasonLossResolve, closeOut]

/-! ### Claim C4 -/

theorem hasPosOnPair_eq_false {ps : List Position} {a : String} {tf : Timeframe}
    (h : hasPosOnPair ps a tf = false) :
    ∀ p ∈ ps, ¬(p.asset = a ∧ p.timeframe = tf) := by
  intro p hp hcon
  have ht : hasPosOnPair ps a tf = true := by
    unfold hasPosOnPair
    rw [List.any_eq_true]
    refine ⟨p, hp, ?_⟩
    simp [hcon.1, hcon.2]
  rw [h] at ht
  exact absurd ht (by simp)

theorem scanLoop_preserves_PosInv :
    ∀ (markets : List (Market × Option EntryDecision)) (s : BotState) (now : ℚ),
      PosInv s.positions → PosInv ((scanLoop s markets now).1.positions)
  | [], _, _, hs => hs
  | (m, dec) :: rest, s, now, hs => by
    unfold scanLoop
    dsimp only
    by_cases h1 : MAX_POSITIONS ≤ s.positions.length
    · rw [if_pos h1]; exact hs
    rw [if_neg h1]
    by_cases h2 : s.bankroll < PROBE_SIZE
    · rw [if_pos h2]; exact hs
    rw [if_neg h2]
    by_cases h3 : (ONLY_BTC && !(m.asset == assetBTC)) = true
    · rw [if_pos h3]; exact scanLoop_preserves_PosInv rest s now hs
    rw [if_neg h3]
    by_cases h4 : marketSecsLeft m now < MIN_ENTRY_SECS
    · rw [if_pos h4]; exact scanLoop_preserves_PosInv rest s now hs
    rw [if_neg h4]
    by_cases h5 : marketSecsLeft m now < ENTRY_BUFFER_BY_TF m.timeframe
    · rw [if_pos h5]; exact scanLoop_preserves_PosInv rest s now hs
    rw [if_neg h5]
    by_cases h6 : hasPosOnCondition s.positions m.conditionId = true
    · rw [if_pos h6]; exact scanLoop_preserves_PosInv rest s now hs
    rw [if_neg h6]
    by_cases h7 : hasPosOnPair s.positions m.asset m.timeframe = true
    · rw [if_pos h7]; exact scanLoop_preserves_PosInv rest s now hs
    rw [if_neg h7]
    cases dec with
    | none => exact scanLoop_preserves_PosInv rest s now hs
    | some d =>
      dsimp only
      rw [if_neg h1]
      rcases hE : simulateEntry s.stats d.live d.book
        (scannerBetSize d.conviction d.volHigh s.positions.length s.bankroll m.timeframe)
        d.entryPrice with ⟨fill, stats2, cflag⟩
      cases fill with
      | none =>
        exact scanLoop_preserves_PosInv rest _ now hs
      | some f =>
        refine scanLoop_preserves_PosInv rest _ now ?_
        unfold scanOpen
        dsimp only
        constructor
        · rw [List.length_append, List.length_singleton]
          exact Nat.succ_le_of_lt (Nat.lt_of_not_le h1)
        · rw [List.pairwise_append]
          refine ⟨hs.2, List.pairwise_singleton _ _, ?_⟩
          intro p hp q hq
          rw [List.mem_singleton] at hq
          subst hq
          dsimp only
          exact hasPosOnPair_eq_false (eq_false_of_ne_true h7) p hp

theorem autoOpen_shape (s : BotState) (market : Market) (side : Side) (tokenId : Nat)
    (entryPrice betSize now : ℚ) (clobBook : Option Orderbook) (live : Option LiveResult) :
    (autoOpen s market side tokenId entryPrice betSize now clobBook live).1.positions =
      s.positions ∨
    ∃ p, (autoOpen s market side tokenId entryPrice betSize now clobBook live).1.positions =
      s.positions ++ [p] := by
  delta autoOpen
  split
  · left; rfl
  · right; exact ⟨_, rfl⟩

/-- Every branch of `_autoEntryDailyInner` either leaves the position
list alone or, when the cap check has passed, appends one position. -/
theorem autoEntry_positions_shape (s : BotState) (markets : List Market) (now : ℚ)
    (orderbooks : Nat → Option Orderbook) (live : Option LiveResult) :
    (autoEntryDailyInner s markets now orderbooks live).1.positions = s.positions ∨
    (s.positions.length < MAX_POSITIONS ∧
      ∃ p, (autoEntryDailyInner s markets now orderbooks live).1.positions =
        s.positions ++ [p]) := by
  delta autoEntryDailyInner
  split
  · left; rfl
  split
  · left; rfl
  next h2 =>
  split
  · left; rfl
  repeat' (first | split | dsimp only)
  all_goals try (left; rfl)
  all_goals
    refine (autoOpen_shape s _ _ _ _ _ now _ live).elim (fun h => Or.inl h)
      (fun hp => Or.inr ⟨Nat.lt_of_not_le h2, hp⟩)

/-- C4 (amended): the entry scanner and the daily auto-entry path both
preserve the at-most-one-per-`(asset, timeframe)` invariant and the
MAX_POSITIONS cap; `manualTrade`, however, performs neither check, so
the invariant is not preserved by every position-creating operation. -/
theorem scanner_and_auto_preserve_position_invariant (s : BotState)
    (hs : PosInv s.positions) :
    (∀ markets now, PosInv ((scanEntries s markets now).1.positions)) ∧
    (∀ markets now orderbooks live,
      PosInv ((autoEntryDailyInner s markets now orderbooks live).1.positions)) := by
  constructor
  · intro markets now
    unfold scanEntries
    split
    · exact hs
    split
    · exact hs
    split
    · exact hs
    split
    · exact hs
    split
    · exact hs
    exact scanLoop_preserves_PosInv markets s now hs
  · intro markets now orderbooks live
    rcases autoEntry_positions_shape s markets now orderbooks live with h | ⟨hlt, p, h⟩
    · rw [h]; exact hs
    · rw [h]
      constructor
      · rw [List.length_append, List.length_singleton]
        exact Nat.succ_le_of_lt hlt
      · have hnil : s.positions = [] := by
          have : s.positions.length = 0 := by
            have := hlt
            unfold MAX_POSITIONS at this
            omega
          exact List.length_eq_zero.1 this
        rw [hnil]
        exact List.pairwise_singleton _ _

/-- C4 witness: from the empty state the scanner trivially preserves
the invariant. -/
theorem scanner_preserves_position_invariant_witness :
    PosInv (stateWith [] 8 0).positions ∧
    PosInv ((scanEntries (stateWith [] 8 0) [] 0).1.positions) := by
  have hs : PosInv (stateWith [] 8 0).positions := by
    constructor
    · norm_num [stateWith, MAX_POSITIONS]
    · simp [stateWith]
  exact ⟨hs, (scanner_and_auto_preserve_position_invariant _ hs).1 [] 0⟩

/-- C4 counterexample: from a state already holding a BTC 1d position,
`manualTrade` opens a second BTC 1d position — the open set then has two
positions on the same `(asset, timeframe)` pair and exceeds
MAX_POSITIONS = 1. -/
theorem manual_trade_breaks_position_invariant :
    PosInv (stateWith [posBTC1d] 8 0).positions ∧
    (manualTrade (stateWith [posBTC1d] 8 0) [mktBTC1d] assetBTC Side.UP 2
      (fun _ => none) none).2 = ManualResult.ok ∧
    ((manualTrade (stateWith [posBTC1d] 8 0) [mktBTC1d] assetBTC Side.UP 2
      (fun _ => none) none).1.positions.map (fun p => (p.asset, p.timeframe))) =
      [(assetBTC, Timeframe.d1), (assetBTC, Timeframe.d1)] ∧
    MAX_POSITIONS <
      (manualTrade (stateWith [posBTC1d] 8 0) [mktBTC1d] assetBTC Side.UP 2
        (fun _ => none) none).1.positions.length := by
  refine ⟨⟨by norm_num [stateWith, MAX_POSITIONS], by
    simp [stateWith]⟩, ?_, ?_, ?_⟩ <;>
  · norm_num [manualTrade, stateWith, manualFindMarket, tfPriority, mktBTC1d, posBTC1d,
      simulateEntry, emptyStats, jsRound4, jsRound, assetBTC, Side.str, suffixMANUAL,
      MAX_POSITIONS, spreadOf]

/-! ### Claim C5 -/

/-- C5 (amended): when the daily loss limit is breached or model health
is below the floor, the signal-scanner entry path opens nothing and
leaves the state untouched, and exit processing is entirely independent
of the breached quantities — but the daily auto-entry path carries no
such check, so not every entry path is suppressed. -/
theorem breaker_pauses_scanner_not_exits (s : BotState) (c : CloseCmd) (env : ExitEnv)
    (d : ℚ) (hist : List ℚ)
    (hbreach : s.dailyPnl ≤ -DAILY_LOSS_LIMIT ∨ checkModelHealth s.history = false) :
    (∀ markets now, scanEntries s markets now = (s, 0)) ∧
    (processClose { s with dailyPnl := d, history := hist } c env).positions =
      (processClose s c env).positions ∧
    (processClose { s with dailyPnl := d, history := hist } c env).bankroll =
      (processClose s c env).bankroll := by
  refine ⟨?_, ?_, ?_⟩
  · intro markets now
    unfold scanEntries
    by_cases h1 : MAX_POSITIONS ≤ s.positions.length
    · rw [if_pos h1]
    rw [if_neg h1]
    by_cases h2 : s.bankroll < PROBE_SIZE
    · rw [if_pos h2]
    rw [if_neg h2]
    rcases hbreach with hb | hb
    · rw [if_pos hb]
    · by_cases h3 : s.dailyPnl ≤ -DAILY_LOSS_LIMIT
      · rw [if_pos h3]
      rw [if_neg h3, if_pos (by rw [hb]; rfl)]
  all_goals
    unfold processClose closeOut
    dsimp only
    cases s.positions[c.index]? with
    | none => rfl
    | some pos =>
      dsimp only
      rcases hE : simulateExit s.stats env.live env.book pos c.exitPrice env.now
        (isForcedReason c.reason) with ⟨fill, st2⟩
      dsimp only
      cases fill with
      | none =>
        by_cases hf : (!isForcedReason c.reason) = true
        · rw [if_pos hf, if_pos hf]
        · rw [if_neg hf, if_neg hf]
      | some f => rfl

/-- C5 witness: with the daily loss limit breached, the scanner is
paused at a concrete state. -/
theorem breaker_pauses_scanner_witness :
    ((stateWith [] 8 (-6)).dailyPnl ≤ -DAILY_LOSS_LIMIT ∨
      checkModelHealth (stateWith [] 8 (-6)).history = false) ∧
    scanEntries (stateWith [] 8 (-6)) [] 0 = (stateWith [] 8 (-6), 0) := by
  have hb : (stateWith [] 8 (-6)).dailyPnl ≤ -DAILY_LOSS_LIMIT ∨
      checkModelHealth (stateWith [] 8 (-6)).history = false :=
    Or.inl (by norm_num [stateWith, DAILY_LOSS_LIMIT])
  exact ⟨hb, (breaker_pauses_scanner_not_exits (stateWith [] 8 (-6)) ⟨0, reasonFlat, 0, 0⟩
    ⟨none, none, 0⟩ 0 [] hb).1 [] 0⟩

/-- C5 counterexample: with the daily loss limit breached, the daily
auto-entry path still opens a position (while the scanner is paused). -/
theorem auto_entry_ignores_breaker :
    (stateWith [] 8 (-6)).dailyPnl ≤ -DAILY_LOSS_LIMIT ∧
    (∀ markets now, scanEntries (stateWith [] 8 (-6)) markets now =
      (stateWith [] 8 (-6), 0)) ∧
    (autoEntryDailyInner (stateWith [] 8 (-6)) [mktBTC1d] 0 (fun _ => none) none).2 = 1 ∧
    (autoEntryDailyInner (stateWith [] 8 (-6)) [mktBTC1d] 0
      (fun _ => none) none).1.positions.length = 1 := by
  refine ⟨by norm_num [stateWith, DAILY_LOSS_LIMIT], ?_, ?_, ?_⟩
  · intro markets now
    exact (breaker_pauses_scanner_not_exits (stateWith [] 8 (-6)) ⟨0, reasonFlat, 0, 0⟩
      ⟨none, none, 0⟩ 0 [] (Or.inl (by norm_num [stateWith, DAILY_LOSS_LIMIT]))).1 markets now
  all_goals
    norm_num [autoEntryDailyInner, autoCandidates, autoChoice, autoOpen, stateWith,
      mktBTC1d, autoSecsLeft, pickLongest, hasPosOnCondition, assetBTC, simulateEntry,
      emptyStats, jsRound2, jsRound4, jsRound, MAX_POSITIONS, ENTRY_LOCK_MS,
      MAX_SINGLE_BET, SPREAD_COST_ENTRY, SIZE_IMPACT_THRESHOLD, SIZE_IMPACT_FACTOR,
      Side.str, suffixAUTO, List.filter_cons, List.filter_nil, Bool.and_eq_true,
      decide_eq_true_eq]

/-! ### Claim C6 -/

/-- C6: a buy order that places but fails fill verification is
cancelled, creates no position and leaves the bankroll unchanged — but
on the `_scanEntries` path the execution-failure counter increments by
2, not by 1: once inside `_simulateEntry` (line 927) and once more in
the scanner (line 2199).  The `manualTrade` path, which adds no second
increment, matches the specified count of exactly 1. -/
theorem verify_fail_double_counts_failure :
    ((simulateEntry emptyStats (some liveUnmatched) none 2 (2/5)).2.2 = true ∧
      (simulateEntry emptyStats (some liveUnmatched) none 2 (2/5)).1 = none ∧
      (simulateEntry emptyStats (some liveUnmatched) none 2 (2/5)).2.1.failures = 1) ∧
    (scanLoop (stateWith [] 8 0) [(mktBTC1d, some decUnmatched)] 0).1.positions = [] ∧
    (scanLoop (stateWith [] 8 0) [(mktBTC1d, some decUnmatched)] 0).1.bankroll = 8 ∧
    (scanLoop (stateWith [] 8 0) [(mktBTC1d, some decUnmatched)] 0).2 = 0 ∧
    (scanLoop (stateWith [] 8 0) [(mktBTC1d, some decUnmatched)] 0).1.stats.failures = 2 ∧
    (manualTrade (stateWith [] 8 0) [mktBTC1d] assetBTC Side.UP 2
      (fun _ => none) (some liveUnmatched)).2 = ManualResult.err ∧
    (manualTrade (stateWith [] 8 0) [mktBTC1d] assetBTC Side.UP 2
      (fun _ => none) (some liveUnmatched)).1.stats.failures = 1 ∧
    (manualTrade (stateWith [] 8 0) [mktBTC1d] assetBTC Side.UP 2
      (fun _ => none) (some liveUnmatched)).1.positions = [] := by
  refine ⟨⟨rfl, rfl, rfl⟩, ?_⟩
  norm_num [scanLoop, manualTrade, stateWith, mktBTC1d, decUnmatched, liveUnmatched,
    simulateEntry, emptyStats, marketSecsLeft, hasPosOnCondition, hasPosOnPair,
    manualFindMarket, tfPriority, assetBTC, MAX_POSITIONS, MIN_ENTRY_SECS,
    ENTRY_BUFFER_BY_TF, ONLY_BTC, PROBE_SIZE]

/-! ### Claim C1 -/

theorem jsRound2_le_add (x : ℚ) : jsRound2 x ≤ x + 1/200 := by
  unfold jsRound2 jsRound
  rw [div_le_iff (by norm_num : (0:ℚ) < 100)]
  calc ((⌊x * 100 + 1/2⌋ : ℤ) : ℚ) ≤ x * 100 + 1/2 := Int.floor_le _
    _ = (x + 1/200) * 100 := by ring

theorem one_le_jsRound2 {x : ℚ} (h : 1 ≤ x) : 1 ≤ jsRound2 x := by
  unfold jsRound2 jsRound
  rw [le_div_iff (by norm_num : (0:ℚ) < 100)]
  have hf : (100 : ℤ) ≤ ⌊x * 100 + 1/2⌋ := by
    apply Int.le_floor.2
    push_cast
    linarith
  calc (1 : ℚ) * 100 = ((100 : ℤ) : ℚ) := by norm_num
    _ ≤ _ := by exact_mod_cast hf

theorem jsRound2_one : jsRound2 1 = 1 := by
  unfold jsRound2 jsRound
  have hf : ⌊(1 : ℚ) * 100 + 1/2⌋ = 100 := by
    apply Int.floor_eq_iff.2 <;> norm_num
  rw [hf]
  norm_num

theorem jsRound4_nonneg {x : ℚ} (h : 0 ≤ x) : 0 ≤ jsRound4 x := by
  unfold jsRound4 jsRound
  apply div_nonneg _ (by norm_num)
  have hf : (0 : ℤ) ≤ ⌊x * 10000 + 1/2⌋ := Int.le_floor.2 (by push_cast; linarith)
  exact_mod_cast hf

/-- The scanner bet-size clamp chain always stakes at least the probe
size and never more than the bankroll (given the loop guard
`bankroll >= PROBE_SIZE`). -/
theorem scannerBetSize_bounds (conviction : ℚ) (volHigh : Bool) (nPos : Nat)
    (bankroll : ℚ) (tf : Timeframe) (h : PROBE_SIZE ≤ bankroll) :
    PROBE_SIZE ≤ scannerBetSize conviction volHigh nPos bankroll tf ∧
    scannerBetSize conviction volHigh nPos bankroll tf ≤ bankroll := by
  have h1 : (1 : ℚ) ≤ bankroll := by simpa [PROBE_SIZE] using h
  unfold scannerBetSize
  rcases calculateBetSize conviction bankroll with ⟨rawBet, tier⟩
  dsimp only
  have hslots : (max 1 (MAX_POSITIONS - nPos)) = 1 := by
    unfold MAX_POSITIONS
    omega
  rw [hslots, if_neg (lt_irrefl 1)]
  set b1 := if (volHigh && !(tier == tierNamePROBE)) = true
    then max PROBE_SIZE (rawBet * (1/2)) else rawBet with hb1def
  set b3 := min (min b1 (min (bankroll * (49/50)) (bankroll * (49/50))))
    (if tf = Timeframe.m5 then MAX_5M_BET else MAX_SINGLE_BET) with hb3def
  have hb3 : b3 ≤ bankroll * (49/50) := by
    calc b3 ≤ min b1 (min (bankroll * (49/50)) (bankroll * (49/50))) := min_le_left _ _
      _ ≤ min (bankroll * (49/50)) (bankroll * (49/50)) := min_le_right _ _
      _ ≤ bankroll * (49/50) := min_le_left _ _
  have hlow : (1 : ℚ) ≤ max PROBE_SIZE b3 :=
    le_trans (by norm_num [PROBE_SIZE]) (le_max_left PROBE_SIZE b3)
  constructor
  · have h2 := one_le_jsRound2 hlow
    simpa [PROBE_SIZE] using h2
  · rcases le_total b3 PROBE_SIZE with hc | hc
    · rw [max_eq_left hc]
      have h3 : jsRound2 PROBE_SIZE = 1 := jsRound2_one
      rw [h3]
      exact h1
    · rw [max_eq_right hc]
      have hadd := jsRound2_le_add b3
      linarith

/-- A verified entry fill carries a nonnegative execution price when
the external quotes are nonnegative. -/
theorem simulateEntry_fill_nonneg {stats : ExecStats} {live : Option LiveResult}
    {book : Option Orderbook} {betSize mid : ℚ} {f : Fill} {stats2 : ExecStats} {c : Bool}
    (hl : ∀ lr, live = some lr → 0 ≤ lr.execPrice)
    (hpaper : live = none → 0 ≤ mid ∧ 0 ≤ spreadOf book)
    (hE : simulateEntry stats live book betSize mid = (some f, stats2, c)) :
    0 ≤ f.execPrice := by
  unfold simulateEntry at hE
  cases live with
  | some result =>
    dsimp only at hE
    by_cases hs : result.success = true
    · rw [if_pos hs] at hE
      by_cases hm : (!result.matched) = true
      · rw [if_pos hm] at hE
        simp at hE
      · rw [if_neg hm] at hE
        simp only [Prod.mk.injEq, Option.some.injEq] at hE
        rw [← hE.1]
        exact hl result rfl
    · rw [if_neg hs] at hE
      simp at hE
  | none =>
    obtain ⟨hmid, hspread⟩ := hpaper rfl
    dsimp only at hE
    split at hE
    · simp at hE
    · simp only [Prod.mk.injEq, Option.some.injEq] at hE
      rw [← hE.1]
      dsimp only
      apply jsRound4_nonneg
      unfold spreadOf at hspread
      have hbase : 0 ≤ mid + (book.map Orderbook.spread).getD (1/100) * SPREAD_COST_ENTRY := by
        have : 0 ≤ (book.map Orderbook.spread).getD (1/100) * SPREAD_COST_ENTRY :=
          mul_nonneg hspread (by norm_num [SPREAD_COST_ENTRY])
        linarith
      split
      next himp =>
        have : 0 ≤ (betSize - SIZE_IMPACT_THRESHOLD) * SIZE_IMPACT_FACTOR := by
          apply mul_nonneg _ (by norm_num [SIZE_IMPACT_FACTOR])
          have := himp.1
          unfold SIZE_IMPACT_THRESHOLD at this ⊢
          linarith
        linarith
      next => exact hbase

/-- A verified exit fill carries a nonnegative execution price. -/
theorem simulateExit_fill_nonneg {stats : ExecStats} {live : Option LiveResult}
    {book : Option Orderbook} {pos : Position} {mid now : ℚ} {isForced : Bool}
    {f : Fill} {stats2 : ExecStats}
    (hl : ∀ lr, live = some lr → 0 ≤ lr.execPrice)
    (hE : simulateExit stats live book pos mid now isForced = (some f, stats2)) :
    0 ≤ f.execPrice := by
  unfold simulateExit at hE
  cases live with
  | some result =>
    dsimp only at hE
    by_cases hsh : floorShares pos.size < 1
    · rw [if_pos hsh] at hE
      simp at hE
    · rw [if_neg hsh] at hE
      by_cases hs : result.success = true
      · rw [if_pos hs] at hE
        by_cases hm : (!result.matched) = true
        · rw [if_pos hm] at hE
          simp at hE
        · rw [if_neg hm] at hE
          simp only [Prod.mk.injEq, Option.some.injEq] at hE
          rw [← hE.1]
          exact hl result rfl
      · rw [if_neg hs] at hE
        simp at hE
  | none =>
    dsimp only at hE
    split at hE
    · simp at hE
    · simp only [Prod.mk.injEq, Option.some.injEq] at hE
      rw [← hE.1]
      dsimp only
      apply jsRound4_nonneg
      have : (0 : ℚ) < 1/1000 := by norm_num
      exact le_trans this.le (le_max_left _ _)

/-- A position pushed by any entry path satisfies the structural
invariant. -/
theorem goodPos_of_open (cid : Nat) (a : String) (tf : Timeframe) (sd : Side) (tok : Nat)
    (exec betSize : ℚ) (ed : Option ℚ) (key : String) (hb : 0 ≤ betSize) (hx : 0 ≤ exec) :
    GoodPos { conditionId := cid, asset := a, timeframe := tf, side := sd,
              tokenId := tok, entryPrice := exec, size := betSize / exec,
              costBasis := betSize, endDate := ed, patternKey := key } := by
  constructor
  · exact div_nonneg hb hx
  · by_cases hz : exec = 0
    · right
      exact ⟨hb, by dsimp only; rw [hz, div_zero]⟩
    · left
      dsimp only
      rw [mul_comm, div_mul_cancel₀ _ hz]

/-- What a close credits back to the bankroll is nonnegative. -/
theorem close_credit_nonneg (pos : Position) (exitPrice : ℚ)
    (hp : GoodPos pos) (hx : 0 ≤ exitPrice) :
    0 ≤ (if pos.costBasis = 0 then PROBE_SIZE else pos.costBasis) +
      (exitPrice - pos.entryPrice) * pos.size := by
  obtain ⟨hsz, hA | ⟨hcb, hsz0⟩⟩ := hp
  · have hes : 0 ≤ exitPrice * pos.size := mul_nonneg hx hsz
    by_cases hc0 : pos.costBasis = 0
    · rw [if_pos hc0]
      have : pos.entryPrice * pos.size = 0 := by rw [← hA, hc0]
      unfold PROBE_SIZE
      nlinarith
    · rw [if_neg hc0, hA]
      nlinarith
  · rw [hsz0]
    by_cases hc0 : pos.costBasis = 0
    · rw [if_pos hc0]
      norm_num [PROBE_SIZE]
    · rw [if_neg hc0]
      linarith

theorem closeOut_preserves_GoodState (s : BotState) (rest : List Position) (pos : Position)
    (c : CloseCmd) (fill : Option Fill) (stats : ExecStats)
    (hg : GoodState s) (hrest : ∀ p ∈ rest, GoodPos p) (hp : GoodPos pos)
    (hx : 0 ≤ closeExitPrice c fill) :
    GoodState (closeOut s rest pos c fill stats) := by
  constructor
  · unfold closeOut closePnl
    dsimp only
    have hcr := close_credit_nonneg pos (closeExitPrice c fill) hp hx
    have hb := hg.1
    linarith
  · unfold closeOut
    dsimp only
    exact hrest

theorem processClose_preserves_GoodState (s : BotState) (c : CloseCmd) (env : ExitEnv)
    (hc : 0 ≤ c.exitPrice) (hl : ∀ lr, env.live = some lr → 0 ≤ lr.execPrice)
    (hg : GoodState s) : GoodState (processClose s c env) := by
  unfold processClose
  cases hpos : s.positions[c.index]? with
  | none => exact hg
  | some pos =>
    have hmem : pos ∈ s.positions := List.getElem?_mem hpos
    have hp : GoodPos pos := hg.2 pos hmem
    have hrest : ∀ p ∈ s.positions.eraseIdx c.index, GoodPos p := fun p hpm =>
      hg.2 p ((List.eraseIdx_sublist s.positions c.index).mem hpm)
    dsimp only
    rcases hE : simulateExit s.stats env.live env.book pos c.exitPrice env.now
      (isForcedReason c.reason) with ⟨fill, st2⟩
    cases fill with
    | none =>
      by_cases hf : (!isForcedReason c.reason) = true
      · rw [if_pos hf]
        refine ⟨hg.1, ?_⟩
        dsimp only
        rw [insertIdx_eraseIdx_self s.positions c.index pos hpos]
        exact hg.2
      · rw [if_neg hf]
        exact closeOut_preserves_GoodState s _ pos c none st2 hg hrest hp
          (by unfold closeExitPrice; exact hc)
    | some f =>
      exact closeOut_preserves_GoodState s _ pos c (some f) st2 hg hrest hp
        (by unfold closeExitPrice; exact simulateExit_fill_nonneg hl hE)

theorem scanLoop_preserves_GoodState :
    ∀ (markets : List (Market × Option EntryDecision)) (s : BotState) (now : ℚ),
      (∀ md ∈ markets, ∀ d, md.2 = some d → GoodDecision d) →
      GoodState s → GoodState ((scanLoop s markets now).1)
  | [], _, _, _, hg => hg
  | (m, dec) :: rest, s, now, hdec, hg => by
    have hdecRest : ∀ md ∈ rest, ∀ d, md.2 = some d → GoodDecision d := fun md hm =>
      hdec md (List.mem_cons_of_mem _ hm)
    unfold scanLoop
    dsimp only
    by_cases h1 : MAX_POSITIONS ≤ s.positions.length
    · rw [if_pos h1]; exact hg
    rw [if_neg h1]
    by_cases h2 : s.bankroll < PROBE_SIZE
    · rw [if_pos h2]; exact hg
    rw [if_neg h2]
    by_cases h3 : (ONLY_BTC && !(m.asset == assetBTC)) = true
    · rw [if_pos h3]; exact scanLoop_preserves_GoodState rest s now hdecRest hg
    rw [if_neg h3]
    by_cases h4 : marketSecsLeft m now < MIN_ENTRY_SECS
    · rw [if_pos h4]; exact scanLoop_preserves_GoodState rest s now hdecRest hg
    rw [if_neg h4]
    by_cases h5 : marketSecsLeft m now < ENTRY_BUFFER_BY_TF m.timeframe
    · rw [if_pos h5]; exact scanLoop_preserves_GoodState rest s now hdecRest hg
    rw [if_neg h5]
    by_cases h6 : hasPosOnCondition s.positions m.conditionId = true
    · rw [if_pos h6]; exact scanLoop_preserves_GoodState rest s now hdecRest hg
    rw [if_neg h6]
    by_cases h7 : hasPosOnPair s.positions m.asset m.timeframe = true
    · rw [if_pos h7]; exact scanLoop_preserves_GoodState rest s now hdecRest hg
    rw [if_neg h7]
    cases dec with
    | none => exact scanLoop_preserves_GoodState rest s now hdecRest hg
    | some d =>
      have hgood : GoodDecision d := hdec (m, some d) (List.mem_cons_self _ _) d rfl
      dsimp only
      rw [if_neg h1]
      rcases hE : simulateEntry s.stats d.live d.book
        (scannerBetSize d.conviction d.volHigh s.positions.length s.bankroll m.timeframe)
        d.entryPrice with ⟨fill, stats2, cflag⟩
      cases fill with
      | none =>
        exact scanLoop_preserves_GoodState rest _ now hdecRest ⟨hg.1, hg.2⟩
      | some f =>
        refine scanLoop_preserves_GoodState rest _ now hdecRest ?_
        have hbet := (scannerBetSize_bounds d.conviction d.volHigh s.positions.length
          s.bankroll m.timeframe (not_lt.1 h2)).1
        have hbet0 : 0 ≤ scannerBetSize d.conviction d.volHigh s.positions.length
            s.bankroll m.timeframe := le_trans (by norm_num [PROBE_SIZE]) hbet
        have hexec : 0 ≤ f.execPrice := by
          refine simulateEntry_fill_nonneg hgood.1 ?_ hE
          intro hnone
          exact hgood.2 hnone
        unfold scanOpen
        refine ⟨le_max_left 0 _, ?_⟩
        intro p hpm
        rw [List.mem_append] at hpm
        rcases hpm with hpm | hpm
        · exact hg.2 p hpm
        · rw [List.mem_singleton] at hpm
          subst hpm
          exact goodPos_of_open _ _ _ _ _ _ _ _ _ hbet0 hexec

theorem scanEntries_preserves_GoodState (s : BotState)
    (markets : List (Market × Option EntryDecision)) (now : ℚ)
    (hdec : ∀ md ∈ markets, ∀ d, md.2 = some d → GoodDecision d)
    (hg : GoodState s) : GoodState ((scanEntries s markets now).1) := by
  unfold scanEntries
  split
  · exact hg
  split
  · exact hg
  split
  · exact hg
  split
  · exact hg
  split
  · exact hg
  exact scanLoop_preserves_GoodState markets s now hdec hg

theorem manualTrade_preserves_GoodState (s : BotState) (markets : List Market)
    (asset : String) (side : Side) (betSize : ℚ) (orderbooks : Nat → Option Orderbook)
    (live : Option LiveResult)
    (hl : ∀ lr, live = some lr → 0 ≤ lr.execPrice)
    (hb : ∀ t, 0 ≤ spreadOf (orderbooks t))
    (hg : GoodState s) :
    GoodState ((manualTrade s markets asset side betSize orderbooks live).1) := by
  delta manualTrade
  split
  · exact hg
  next h1 =>
  split
  · exact hg
  next h2 =>
  split
  · exact hg
  next market hm =>
  split
  · exact hg
  next tokenId ht =>
  dsimp only
  split
  · exact hg
  next h3 =>
  split
  next stats2 c hE => exact ⟨hg.1, hg.2⟩
  next f stats2 c hE =>
    have hbet0 : (0 : ℚ) ≤ betSize := by
      have := not_lt.1 h1
      linarith
    have hexec : 0 ≤ f.execPrice := by
      refine simulateEntry_fill_nonneg hl ?_ hE
      intro _
      constructor
      · rcases not_or.1 h3 with ⟨h3a, _⟩
        exact le_of_lt (not_le.1 h3a)
      · exact hb tokenId
    refine ⟨le_max_left 0 _, ?_⟩
    intro p hpm
    rw [List.mem_append] at hpm
    rcases hpm with hpm | hpm
    · exact hg.2 p hpm
    · rw [List.mem_singleton] at hpm
      subst hpm
      exact goodPos_of_open _ _ _ _ _ _ _ _ _ hbet0 hexec

theorem autoOpen_preserves_GoodState (s : BotState) (market : Market) (side : Side)
    (tokenId : Nat) (entryPrice betSize now : ℚ) (clobBook : Option Orderbook)
    (live : Option LiveResult)
    (hl : ∀ lr, live = some lr → 0 ≤ lr.execPrice)
    (hsp : 0 ≤ spreadOf clobBook)
    (hmid : 0 ≤ entryPrice) (hbet0 : 0 ≤ betSize)
    (hg : GoodState s) :
    GoodState ((autoOpen s market side tokenId entryPrice betSize now clobBook live).1) := by
  delta autoOpen
  split
  next stats2 c hE => exact ⟨hg.1, hg.2⟩
  next f stats2 c hE =>
    have hexec : 0 ≤ f.execPrice :=
      simulateEntry_fill_nonneg hl (fun _ => ⟨hmid, hsp⟩) hE
    refine ⟨le_max_left 0 _, ?_⟩
    intro p hpm
    rw [List.mem_append] at hpm
    rcases hpm with hpm | hpm
    · exact hg.2 p hpm
    · rw [List.mem_singleton] at hpm
      subst hpm
      exact goodPos_of_open _ _ _ _ _ _ _ _ _ hbet0 hexec

theorem autoTail_preserves_GoodState (s : BotState) (market : Market) (side : Side)
    (tokenId : Nat) (ep now : ℚ) (clobBook : Option Orderbook) (live : Option LiveResult)
    (hl : ∀ lr, live = some lr → 0 ≤ lr.execPrice)
    (hsp : 0 ≤ spreadOf clobBook)
    (hg : GoodState s) :
    GoodState ((if ep ≤ 0 ∨ (17/20 : ℚ) ≤ ep then (s, 0)
      else if ep < (1/20 : ℚ) then (s, 0)
      else if min (jsRound2 (min (s.bankroll * (49/50)) (s.bankroll - 1/100)))
          MAX_SINGLE_BET < 1 then (s, 0)
      else autoOpen s market side tokenId ep
        (min (jsRound2 (min (s.bankroll * (49/50)) (s.bankroll - 1/100))) MAX_SINGLE_BET)
        now clobBook live).1) := by
  split
  · exact hg
  next h9 =>
  split
  · exact hg
  split
  · exact hg
  next h11 =>
  refine autoOpen_preserves_GoodState _ _ _ _ _ _ _ _ _ hl hsp ?_ ?_ hg
  · rcases not_or.1 h9 with ⟨h9a, _⟩
    exact le_of_lt (not_le.1 h9a)
  · have := not_lt.1 h11
    linarith

set_option maxHeartbeats 1000000 in
theorem autoEntry_preserves_GoodState (s : BotState) (markets : List Market) (now : ℚ)
    (orderbooks : Nat → Option Orderbook) (live : Option LiveResult)
    (hl : ∀ lr, live = some lr → 0 ≤ lr.execPrice)
    (hb : ∀ t, 0 ≤ spreadOf (orderbooks t))
    (hg : GoodState s) :
    GoodState ((autoEntryDailyInner s markets now orderbooks live).1) := by
  delta autoEntryDailyInner
  split
  · exact hg
  split
  · exact hg
  split
  · exact hg
  split
  · exact hg
  split
  · exact hg
  split
  · exact hg
  split
  · exact hg
  split
  · exact hg
  dsimp only
  exact autoTail_preserves_GoodState _ _ _ _ _ _ _ _ hl (hb _) hg

theorem botStep_preserves_GoodState {s s' : BotState} (h : BotStep s s')
    (hg : GoodState s) : GoodState s' := by
  cases h with
  | scan markets now hdec => exact scanEntries_preserves_GoodState _ markets now hdec hg
  | close c env hc hl => exact processClose_preserves_GoodState _ c env hc hl hg
  | manual markets asset side betSize orderbooks live hl hb =>
    exact manualTrade_preserves_GoodState _ markets asset side betSize orderbooks live hl hb hg
  | auto markets now orderbooks live hl hb =>
    exact autoEntry_preserves_GoodState _ markets now orderbooks live hl hb hg

theorem steps_preserve_GoodState {s s' : BotState}
    (h : Relation.ReflTransGen BotStep s s') (hg : GoodState s) : GoodState s' := by
  induction h with
  | refl => exact hg
  | tail _ hstep ih => exact botStep_preserves_GoodState hstep ih

/-- C1: bankroll accounting is conservative.  (1) The scanner stake
never exceeds the bankroll (and is at least the probe size); (2) an
open deducts exactly the new position's costBasis; (3) a close that
goes through credits exactly costBasis + realized P&L, and a failed
non-forced close leaves the bankroll untouched; (4) from any state with
nonnegative bankroll and well-formed positions, the bankroll stays
nonnegative along every sequence of engine steps; (5) a manual entry
whose stake exceeds the bankroll is rejected with the state unchanged
and no position created. -/
theorem bankroll_conservation :
    (∀ (conviction : ℚ) (volHigh : Bool) (nPos : Nat) (bankroll : ℚ) (tf : Timeframe),
      PROBE_SIZE ≤ bankroll →
      PROBE_SIZE ≤ scannerBetSize conviction volHigh nPos bankroll tf ∧
      scannerBetSize conviction volHigh nPos bankroll tf ≤ bankroll) ∧
    (∀ (s : BotState) (m : Market) (d : EntryDecision) (betSize execPrice now : ℚ)
        (stats : ExecStats), betSize ≤ s.bankroll →
      (scanOpen s m d betSize execPrice now stats).bankroll = s.bankroll - betSize ∧
      ∃ p, (scanOpen s m d betSize execPrice now stats).positions = s.positions ++ [p] ∧
        p.costBasis = betSize) ∧
    (∀ (s : BotState) (rest : List Position) (pos : Position) (c : CloseCmd)
        (fill : Option Fill) (stats : ExecStats),
      (closeOut s rest pos c fill stats).bankroll = s.bankroll +
        (if pos.costBasis = 0 then PROBE_SIZE else pos.costBasis) + closePnl pos c fill) ∧
    (∀ (s s' : BotState), GoodState s → Relation.ReflTransGen BotStep s s' →
      0 ≤ s'.bankroll) ∧
    (∀ (s : BotState) (markets : List Market) (asset : String) (side : Side) (betSize : ℚ)
        (orderbooks : Nat → Option Orderbook) (live : Option LiveResult),
      s.bankroll < betSize →
      manualTrade s markets asset side betSize orderbooks live = (s, ManualResult.err)) := by
  refine ⟨scannerBetSize_bounds, ?_, ?_, ?_, ?_⟩
  · intro s m d betSize execPrice now stats hle
    constructor
    · unfold scanOpen
      dsimp only
      rw [max_eq_right (by linarith)]
    · exact ⟨_, rfl, rfl⟩
  · intro s rest pos c fill stats
    rfl
  · intro s s' hg hsteps
    exact (steps_preserve_GoodState hsteps hg).1
  · intro s markets asset side betSize orderbooks live hlt
    unfold manualTrade
    by_cases h1 : betSize < 1
    · rw [if_pos h1]
    · rw [if_neg h1, if_pos hlt]

/-- C1 witness: the five conjuncts at concrete inputs. -/
theorem bankroll_conservation_witness :
    (PROBE_SIZE ≤ (8 : ℚ) ∧
      scannerBetSize (1/2) false 0 8 Timeframe.d1 ≤ 8) ∧
    ((2 : ℚ) ≤ (stateWith [] 8 0).bankroll ∧
      (scanOpen (stateWith [] 8 0) mktBTC1d decUnmatched 2 (2/5) 0 emptyStats).bankroll = 6) ∧
    (GoodState (stateWith [] 8 0) ∧
      (0 : ℚ) ≤ (stateWith [] 8 0).bankroll) ∧
    ((stateWith [] 2 0).bankroll < (5 : ℚ) ∧
      manualTrade (stateWith [] 2 0) [] assetBTC Side.UP 5 (fun _ => none) none =
        (stateWith [] 2 0, ManualResult.err)) := by
  have hps : PROBE_SIZE ≤ (8 : ℚ) := by norm_num [PROBE_SIZE]
  have hg : GoodState (stateWith [] 8 0) := by
    constructor
    · norm_num [stateWith]
    · intro p hp
      simp [stateWith] at hp
  refine ⟨⟨hps, (bankroll_conservation.1 (1/2) false 0 8 Timeframe.d1 hps).2⟩, ?_, ?_, ?_⟩
  · have h2 : (2 : ℚ) ≤ (stateWith [] 8 0).bankroll := by norm_num [stateWith]
    refine ⟨h2, ?_⟩
    have := (bankroll_conservation.2.1 (stateWith [] 8 0) mktBTC1d decUnmatched 2 (2/5) 0
      emptyStats h2).1
    rw [this]
    norm_num [stateWith]
  · refine ⟨hg, ?_⟩
    exact bankroll_conservation.2.2.2.1 (stateWith [] 8 0) (stateWith [] 8 0) hg
      Relation.ReflTransGen.refl
  · have hlt : (stateWith [] 2 0).bankroll < (5 : ℚ) := by norm_num [stateWith]
    exact ⟨hlt, bankroll_conservation.2.2.2.2 (stateWith [] 2 0) [] assetBTC Side.UP 5
      (fun _ => none) none hlt⟩

/-! ### Claim C7 -/

/-- C7: a long-timeframe (1h/4h/1d) position at a negative unrealized
P&L, outside the forced liquidity/expiry window and with none of the
three salvage-sigma triggers firing, is held by the position manager —
no exit rule of the `_managePositions` cascade is selected, for all
support, market-intelligence and signal inputs. -/
theorem long_tf_loss_is_held (ctx : ExitCtx)
    (hTF : isLongTF ctx.tf = true)
    (hLoss : (ctx.cp - ctx.entryPrice) * ctx.size < 0)
    (hWin : FORCE_EXIT_BY_TF ctx.tf ≤ ctx.secsToEnd)
    (hS1 : ¬(4 < sigmasNeededOf ctx ∧ ctx.secsToEnd / 60 < 60 ∧ (3/100 : ℚ) < ctx.cp))
    (hS2 : ¬(3 < sigmasNeededOf ctx ∧ ctx.secsToEnd / 60 < 30 ∧ (3/100 : ℚ) < ctx.cp))
    (hS3 : ¬(2 < sigmasNeededOf ctx ∧ ctx.secsToEnd / 60 < 15 ∧ (1/20 : ℚ) < ctx.cp)) :
    decideExit ctx = none := by
  have hfe : 0 < FORCE_EXIT_BY_TF ctx.tf := by
    cases ctx.tf <;> norm_num [FORCE_EXIT_BY_TF]
  have hsec : 0 < ctx.secsToEnd := lt_of_lt_of_le hfe hWin
  have h5m : ctx.tf ≠ Timeframe.m5 := by
    intro h
    rw [h] at hTF
    simp [isLongTF] at hTF
  unfold decideExit
  dsimp only
  rw [if_neg (fun h => absurd h.2 (not_le.2 hsec))]
  rw [if_neg (fun h => h5m h.1)]
  rw [if_neg (fun h => h5m h.1)]
  rw [if_neg (fun h => absurd h.1 (not_lt.2 hWin))]
  rw [if_neg (fun h => hS1 ⟨h.2.2.2.1, h.2.2.2.2.1, h.2.2.2.2.2⟩)]
  rw [if_neg (fun h => hS2 ⟨h.2.2.2.1, h.2.2.2.2.1, h.2.2.2.2.2⟩)]
  rw [if_neg (fun h => hS3 ⟨h.2.2.2.1, h.2.2.2.2.1, h.2.2.2.2.2⟩)]
  by_cases hdead : isLongTF ctx.tf = true ∧ (ctx.cp - ctx.entryPrice) * ctx.size ≤ 0 ∧
      0 < sigmasNeededOf ctx ∧ ctx.cp < (3/100 : ℚ)
  · rw [if_pos hdead]
  · rw [if_neg hdead]
    rw [if_neg (fun h => absurd h.2.2.1 (not_lt.2 (le_of_lt hLoss)))]
    rw [if_neg (fun h => absurd h.2.2.1 (not_lt.2 (le_of_lt hLoss)))]
    rw [if_pos ⟨hTF, le_of_lt hLoss⟩]

/-- C7 witness: the spec scenario — a 1d position down 30% of cost with
10 hours remaining and no salvage trigger — is held. -/
theorem long_tf_loss_is_held_witness :
    (isLongTF ctxDiamond.tf = true ∧
      (ctxDiamond.cp - ctxDiamond.entryPrice) * ctxDiamond.size < 0 ∧
      FORCE_EXIT_BY_TF ctxDiamond.tf ≤ ctxDiamond.secsToEnd) ∧
    decideExit ctxDiamond = none := by
  refine ⟨⟨rfl, by norm_num [ctxDiamond], by norm_num [ctxDiamond, FORCE_EXIT_BY_TF]⟩, ?_⟩
  exact long_tf_loss_is_held ctxDiamond rfl (by norm_num [ctxDiamond])
    (by norm_num [ctxDiamond, FORCE_EXIT_BY_TF])
    (by norm_num [ctxDiamond, sigmasNeededOf])
    (by norm_num [ctxDiamond, sigmasNeededOf])
    (by norm_num [ctxDiamond, sigmasNeededOf])

/-! ### Claim C3 -/

/-- C3: the code catches a tick-body exception only in `tick()`; in
`fastTick()` an exception skips the final guard release, so `_ticking`
stays set and every later `tick()` and `fastTick()` call returns
immediately — the claim that both loops release the re-entrancy guard
after a throwing tick fails for `fastTick`.  Evaluated at the failing
input (running engine, markets present, free guard, throwing body):
the fast tick throws, leaves the guard held, and wedges both loops,
while `tick()` at the same input always releases the guard. -/
theorem fastTick_exception_wedges_guard :
    (fastTick ⟨true, false, false, 0⟩ true).2 = TickOutcome.threw ∧
    (fastTick ⟨true, false, false, 0⟩ true).1.ticking = true ∧
    (∀ b, tick (fastTick ⟨true, false, false, 0⟩ true).1 b =
      ((fastTick ⟨true, false, false, 0⟩ true).1, TickOutcome.skipped)) ∧
    (∀ b, fastTick (fastTick ⟨true, false, false, 0⟩ true).1 b =
      ((fastTick ⟨true, false, false, 0⟩ true).1, TickOutcome.skipped)) ∧
    (∀ b, (tick ⟨true, false, false, 0⟩ b).1.ticking = false ∧
      (tick ⟨true, false, false, 0⟩ b).2 ≠ TickOutcome.skipped) := by
  refine ⟨rfl, rfl, ?_, ?_, ?_⟩ <;> decide

/-! ### Claim C8: shape of the binary probability model -/

theorem hornerP_hasDerivAt (t : ℝ) : HasDerivAt hornerP (qpoly t) t := by
  have h5 : HasDerivAt (fun x : ℝ => x ^ 5) (5 * t ^ 4) t := by simpa using hasDerivAt_pow 5 t
  have h4 : HasDerivAt (fun x : ℝ => x ^ 4) (4 * t ^ 3) t := by simpa using hasDerivAt_pow 4 t
  have h3 : HasDerivAt (fun x : ℝ => x ^ 3) (3 * t ^ 2) t := by simpa using hasDerivAt_pow 3 t
  have h2 : HasDerivAt (fun x : ℝ => x ^ 2) (2 * t) t := by simpa using hasDerivAt_pow 2 t
  have h1 : HasDerivAt (fun x : ℝ => x) 1 t := hasDerivAt_id t
  have h : HasDerivAt
      (fun x : ℝ => a5 * x ^ 5 + a4 * x ^ 4 + a3 * x ^ 3 + a2 * x ^ 2 + a1 * x)
      (a5 * (5 * t ^ 4) + a4 * (4 * t ^ 3) + a3 * (3 * t ^ 2) + a2 * (2 * t) + a1 * 1) t :=
    ((((h5.const_mul a5).add (h4.const_mul a4)).add (h3.const_mul a3)).add
      (h2.const_mul a2)).add (h1.const_mul a1)
  have hfun : hornerP = fun x : ℝ => a5 * x ^ 5 + a4 * x ^ 4 + a3 * x ^ 3 + a2 * x ^ 2 + a1 * x := by
    funext x
    unfold hornerP
    ring
  rw [hfun]
  convert h using 1
  unfold qpoly
  ring

theorem qpoly_pos (t : ℝ) : 0 < qpoly t := by
  unfold qpoly a1 a2 a3 a4 a5
  nlinarith [sq_nonneg (t * (t - 2906304054/5307027145)),
    sq_nonneg (t - 1509831900615898720/14183840668992163419)]

theorem hornerP_strictMono : StrictMono hornerP :=
  strictMono_of_deriv_pos fun x => by
    rw [(hornerP_hasDerivAt x).deriv]
    exact qpoly_pos x

theorem hornerP_zero : hornerP 0 = 0 := by
  unfold hornerP
  ring

theorem hornerP_nonneg {t : ℝ} (h : 0 ≤ t) : 0 ≤ hornerP t := by
  have hm := hornerP_strictMono.monotone h
  rwa [hornerP_zero] at hm

theorem hornerP_le_one {t : ℝ} (h : t ≤ 1) : hornerP t ≤ 1 := by
  have hm := hornerP_strictMono.monotone h
  have h2 : hornerP 1 ≤ 1 := by
    unfold hornerP a1 a2 a3 a4 a5
    norm_num
  linarith

theorem pcoef_pos : 0 < pcoef := by
  unfold pcoef
  norm_num

theorem one_add_pcoef_pos {u : ℝ} (h : 0 ≤ u) : 0 < 1 + pcoef * u := by
  nlinarith [pcoef_pos]

theorem tcoef_mem {u : ℝ} (h : 0 ≤ u) :
    0 ≤ 1 / (1 + pcoef * u) ∧ 1 / (1 + pcoef * u) ≤ 1 := by
  have hp := one_add_pcoef_pos h
  constructor
  · positivity
  · rw [div_le_one hp]
    nlinarith [pcoef_pos]

theorem Efun_nonneg {u : ℝ} (h : 0 ≤ u) : 0 ≤ Efun u :=
  mul_nonneg (hornerP_nonneg (tcoef_mem h).1) (Real.exp_pos _).le

theorem Efun_le_one {u : ℝ} (h : 0 ≤ u) : Efun u ≤ 1 := by
  have hP1 : hornerP (1 / (1 + pcoef * u)) ≤ 1 := hornerP_le_one (tcoef_mem h).2
  have he : Real.exp (-(u * u)) ≤ 1 := Real.exp_le_one_iff.mpr (by nlinarith)
  calc Efun u ≤ 1 * 1 := mul_le_mul hP1 he (Real.exp_pos _).le zero_le_one
  _ = 1 := one_mul 1

theorem Efun_anti {u1 u2 : ℝ} (h0 : 0 ≤ u1) (h12 : u1 ≤ u2) : Efun u2 ≤ Efun u1 := by
  have hp1 := one_add_pcoef_pos h0
  have ht : 1 / (1 + pcoef * u2) ≤ 1 / (1 + pcoef * u1) :=
    one_div_le_one_div_of_le hp1 (by nlinarith [pcoef_pos])
  have hP : hornerP (1 / (1 + pcoef * u2)) ≤ hornerP (1 / (1 + pcoef * u1)) :=
    hornerP_strictMono.monotone ht
  have he : Real.exp (-(u2 * u2)) ≤ Real.exp (-(u1 * u1)) :=
    Real.exp_le_exp.mpr (by nlinarith)
  exact mul_le_mul hP he (Real.exp_pos _).le (hornerP_nonneg (tcoef_mem h0).1)

theorem normalCDF_eq (x : ℝ) : normalCDF x =
    if x < 0 then Efun (|x| / Real.sqrt 2) / 2 else 1 - Efun (|x| / Real.sqrt 2) / 2 := by
  unfold normalCDF Efun
  dsimp only
  split <;> ring

theorem normalCDF_monotone : Monotone normalCDF := by
  intro x1 x2 h
  rw [normalCDF_eq, normalCDF_eq]
  have hax1 : 0 ≤ |x1| / Real.sqrt 2 := div_nonneg (abs_nonneg _) (Real.sqrt_nonneg _)
  have hax2 : 0 ≤ |x2| / Real.sqrt 2 := div_nonneg (abs_nonneg _) (Real.sqrt_nonneg _)
  have hs2 : 0 < Real.sqrt 2 := Real.sqrt_pos.mpr (by norm_num)
  by_cases h1 : x1 < 0
  · by_cases h2 : x2 < 0
    · rw [if_pos h1, if_pos h2]
      have habs : |x2| ≤ |x1| := by
        rw [abs_of_neg h1, abs_of_neg h2]
        linarith
      have hE := Efun_anti hax2 ((div_le_div_right hs2).mpr habs)
      linarith
    · rw [if_pos h1, if_neg h2]
      linarith [Efun_le_one hax1, Efun_le_one hax2, Efun_nonneg hax1, Efun_nonneg hax2]
  · have h2 : ¬x2 < 0 := by
      push_neg at h1 ⊢
      linarith
    rw [if_neg h1, if_neg h2]
    have habs : |x1| ≤ |x2| := by
      push_neg at h1 h2
      rw [abs_of_nonneg h1, abs_of_nonneg h2]
      exact h
    have hE := Efun_anti hax1 ((div_le_div_right hs2).mpr habs)
    linarith

theorem Efun_tendsto_zero : Filter.Tendsto Efun Filter.atTop (nhds 0) := by
  have hsq : Filter.Tendsto (fun u : ℝ => u * u) Filter.atTop Filter.atTop :=
    Filter.Tendsto.atTop_mul_atTop Filter.tendsto_id Filter.tendsto_id
  have hneg : Filter.Tendsto (fun u : ℝ => -(u * u)) Filter.atTop Filter.atBot :=
    Filter.tendsto_neg_atTop_atBot.comp hsq
  have hexp : Filter.Tendsto (fun u : ℝ => Real.exp (-(u * u))) Filter.atTop (nhds 0) :=
    Real.tendsto_exp_atBot.comp hneg
  refine tendsto_of_tendsto_of_tendsto_of_le_of_le' tendsto_const_nhds hexp ?_ ?_
  · filter_upwards [Filter.eventually_ge_atTop (0 : ℝ)] with u hu
    exact Efun_nonneg hu
  · filter_upwards [Filter.eventually_ge_atTop (0 : ℝ)] with u hu
    calc Efun u ≤ 1 * Real.exp (-(u * u)) :=
          mul_le_mul_of_nonneg_right (hornerP_le_one (tcoef_mem hu).2) (Real.exp_pos _).le
    _ = Real.exp (-(u * u)) := one_mul _

theorem normalCDF_tendsto_one : Filter.Tendsto normalCDF Filter.atTop (nhds 1) := by
  have habs : Filter.Tendsto (fun x : ℝ => |x| / Real.sqrt 2) Filter.atTop Filter.atTop :=
    Filter.Tendsto.atTop_div_const (Real.sqrt_pos.mpr (by norm_num)) Filter.tendsto_abs_atTop_atTop
  have hE : Filter.Tendsto (fun x : ℝ => Efun (|x| / Real.sqrt 2)) Filter.atTop (nhds 0) :=
    Efun_tendsto_zero.comp habs
  have h1 : Filter.Tendsto (fun x : ℝ => 1 - Efun (|x| / Real.sqrt 2) / 2)
      Filter.atTop (nhds (1 - 0 / 2)) := tendsto_const_nhds.sub (hE.div_const 2)
  rw [show (1 : ℝ) - 0 / 2 = 1 by norm_num] at h1
  refine Filter.Tendsto.congr' ?_ h1
  filter_upwards [Filter.eventually_ge_atTop (0 : ℝ)] with x hx
  rw [normalCDF_eq, if_neg (not_lt.mpr hx)]

theorem normalCDF_tendsto_zero : Filter.Tendsto normalCDF Filter.atBot (nhds 0) := by
  have habs : Filter.Tendsto (fun x : ℝ => |x| / Real.sqrt 2) Filter.atBot Filter.atTop :=
    Filter.Tendsto.atTop_div_const (Real.sqrt_pos.mpr (by norm_num)) Filter.tendsto_abs_atBot_atTop
  have hE : Filter.Tendsto (fun x : ℝ => Efun (|x| / Real.sqrt 2)) Filter.atBot (nhds 0) :=
    Efun_tendsto_zero.comp habs
  have h1 : Filter.Tendsto (fun x : ℝ => Efun (|x| / Real.sqrt 2) / 2)
      Filter.atBot (nhds (0 / 2)) := hE.div_const 2
  rw [show (0 : ℝ) / 2 = 0 by norm_num] at h1
  refine Filter.Tendsto.congr' ?_ h1
  filter_upwards [Filter.eventually_lt_atBot (0 : ℝ)] with x hx
  rw [normalCDF_eq, if_pos hx]

theorem sqrt_tendsto_zero_within : Filter.Tendsto Real.sqrt (nhdsWithin 0 (Set.Ioi 0))
    (nhdsWithin 0 (Set.Ioi 0)) := by
  refine tendsto_nhdsWithin_of_tendsto_nhds_of_eventually_within _ ?_ ?_
  · have h : Filter.Tendsto Real.sqrt (nhds 0) (nhds (Real.sqrt 0)) :=
      Real.continuous_sqrt.tendsto 0
    rw [Real.sqrt_zero] at h
    exact h.mono_left nhdsWithin_le_nhds
  · filter_upwards [self_mem_nhdsWithin] with x hx
    exact Set.mem_Ioi.mpr (Real.sqrt_pos.mpr hx)

theorem divY_tendsto : Filter.Tendsto (fun s : ℝ => s / (365.25 * 24 * 3600))
    (nhdsWithin 0 (Set.Ioi 0)) (nhdsWithin 0 (Set.Ioi 0)) := by
  refine tendsto_nhdsWithin_of_tendsto_nhds_of_eventually_within _ ?_ ?_
  · have h : Filter.Tendsto (fun s : ℝ => s / (365.25 * 24 * 3600)) (nhds 0)
        (nhds ((0 : ℝ) / (365.25 * 24 * 3600))) := (continuous_id.div_const _).tendsto 0
    rw [zero_div] at h
    exact h.mono_left nhdsWithin_le_nhds
  · filter_upwards [self_mem_nhdsWithin] with x hx
    exact Set.mem_Ioi.mpr (div_pos (Set.mem_Ioi.mp hx) (by norm_num))

theorem d2_tendsto_atTop (L σ : ℝ) (hL : 0 < L) (hσ : 0 < σ) :
    Filter.Tendsto (fun T : ℝ => (L + -(1/2) * σ * σ * T) / (σ * Real.sqrt T))
      (nhdsWithin 0 (Set.Ioi 0)) Filter.atTop := by
  have heq : ∀ T : ℝ, (L + -(1/2) * σ * σ * T) / (σ * Real.sqrt T) =
      (L + -(1/2) * σ * σ * T) / σ * (Real.sqrt T)⁻¹ := by
    intro T
    rw [← div_div, div_eq_mul_inv]
  simp only [heq]
  have hnum : Filter.Tendsto (fun T : ℝ => (L + -(1/2) * σ * σ * T) / σ)
      (nhdsWithin 0 (Set.Ioi 0)) (nhds (L / σ)) := by
    have hc : Continuous (fun T : ℝ => (L + -(1/2) * σ * σ * T) / σ) := by continuity
    have h := hc.tendsto 0
    simp only [mul_zero, add_zero] at h
    exact h.mono_left nhdsWithin_le_nhds
  have hinv : Filter.Tendsto (fun T : ℝ => (Real.sqrt T)⁻¹)
      (nhdsWithin 0 (Set.Ioi 0)) Filter.atTop :=
    tendsto_inv_zero_atTop.comp sqrt_tendsto_zero_within
  exact Filter.Tendsto.mul_atTop (div_pos hL hσ) hnum hinv

theorem d2_tendsto_atBot (L σ : ℝ) (hL : L < 0) (hσ : 0 < σ) :
    Filter.Tendsto (fun T : ℝ => (L + -(1/2) * σ * σ * T) / (σ * Real.sqrt T))
      (nhdsWithin 0 (Set.Ioi 0)) Filter.atBot := by
  have heq : ∀ T : ℝ, (L + -(1/2) * σ * σ * T) / (σ * Real.sqrt T) =
      (L + -(1/2) * σ * σ * T) / σ * (Real.sqrt T)⁻¹ := by
    intro T
    rw [← div_div, div_eq_mul_inv]
  simp only [heq]
  have hnum : Filter.Tendsto (fun T : ℝ => (L + -(1/2) * σ * σ * T) / σ)
      (nhdsWithin 0 (Set.Ioi 0)) (nhds (L / σ)) := by
    have hc : Continuous (fun T : ℝ => (L + -(1/2) * σ * σ * T) / σ) := by continuity
    have h := hc.tendsto 0
    simp only [mul_zero, add_zero] at h
    exact h.mono_left nhdsWithin_le_nhds
  have hinv : Filter.Tendsto (fun T : ℝ => (Real.sqrt T)⁻¹)
      (nhdsWithin 0 (Set.Ioi 0)) Filter.atTop :=
    tendsto_inv_zero_atTop.comp sqrt_tendsto_zero_within
  exact Filter.Tendsto.neg_mul_atTop (div_neg_of_neg_of_pos hL hσ) hnum hinv

theorem ANNUAL_VOL_pos (asset : String) : 0 < ANNUAL_VOL asset := by
  unfold ANNUAL_VOL
  split_ifs <;> norm_num

theorem binaryProbability_pos_eq (cp sp secs : ℝ) (asset : String)
    (hcp : 0 < cp) (hsp : 0 < sp) (hsecs : 0 < secs) :
    binaryProbability cp sp secs asset =
      normalCDF ((Real.log (cp / sp) +
          -(1/2) * ANNUAL_VOL asset * ANNUAL_VOL asset * (secs / (365.25 * 24 * 3600))) /
        (ANNUAL_VOL asset * Real.sqrt (secs / (365.25 * 24 * 3600)))) := by
  unfold binaryProbability
  rw [if_neg (by push_neg; exact ⟨ne_of_gt hcp, ne_of_gt hsp, hsp⟩),
    if_neg (not_le.mpr hsecs)]

theorem binaryProbability_mono_cp (sp secs : ℝ) (asset : String) (hsp : 0 < sp)
    (hsecs : 0 < secs) {c1 c2 : ℝ} (hc1 : 0 < c1) (h12 : c1 ≤ c2) :
    binaryProbability c1 sp secs asset ≤ binaryProbability c2 sp secs asset := by
  have hc2 : 0 < c2 := lt_of_lt_of_le hc1 h12
  rw [binaryProbability_pos_eq c1 sp secs asset hc1 hsp hsecs,
    binaryProbability_pos_eq c2 sp secs asset hc2 hsp hsecs]
  apply normalCDF_monotone
  have hσ : 0 < ANNUAL_VOL asset := ANNUAL_VOL_pos asset
  have hT : 0 < secs / (365.25 * 24 * 3600) := by positivity
  have hden : 0 < ANNUAL_VOL asset * Real.sqrt (secs / (365.25 * 24 * 3600)) :=
    mul_pos hσ (Real.sqrt_pos.mpr hT)
  have hdiv : c1 / sp ≤ c2 / sp := (div_le_div_right hsp).mpr h12
  have hlog : Real.log (c1 / sp) ≤ Real.log (c2 / sp) :=
    Real.log_le_log (div_pos hc1 hsp) hdiv
  gcongr

theorem binaryProbability_tendsto_one (cp sp : ℝ) (asset : String)
    (hsp : 0 < sp) (hlt : sp < cp) :
    Filter.Tendsto (fun secs => binaryProbability cp sp secs asset)
      (nhdsWithin 0 (Set.Ioi 0)) (nhds 1) := by
  have hcp : 0 < cp := lt_trans hsp hlt
  have hσ := ANNUAL_VOL_pos asset
  have hL : 0 < Real.log (cp / sp) := Real.log_pos ((one_lt_div hsp).mpr hlt)
  have hd2 : Filter.Tendsto (fun secs : ℝ =>
      (Real.log (cp / sp) +
        -(1/2) * ANNUAL_VOL asset * ANNUAL_VOL asset * (secs / (365.25 * 24 * 3600))) /
      (ANNUAL_VOL asset * Real.sqrt (secs / (365.25 * 24 * 3600))))
      (nhdsWithin 0 (Set.Ioi 0)) Filter.atTop :=
    (d2_tendsto_atTop (Real.log (cp / sp)) (ANNUAL_VOL asset) hL hσ).comp divY_tendsto
  have h1 : Filter.Tendsto (fun secs : ℝ => normalCDF
      ((Real.log (cp / sp) +
        -(1/2) * ANNUAL_VOL asset * ANNUAL_VOL asset * (secs / (365.25 * 24 * 3600))) /
      (ANNUAL_VOL asset * Real.sqrt (secs / (365.25 * 24 * 3600)))))
      (nhdsWithin 0 (Set.Ioi 0)) (nhds 1) := normalCDF_tendsto_one.comp hd2
  refine Filter.Tendsto.congr' ?_ h1
  filter_upwards [self_mem_nhdsWithin] with secs hsecs
  exact (binaryProbability_pos_eq cp sp secs asset hcp hsp (Set.mem_Ioi.mp hsecs)).symm

theorem binaryProbability_tendsto_zero (cp sp : ℝ) (asset : String)
    (hcp : 0 < cp) (hlt : cp < sp) :
    Filter.Tendsto (fun secs => binaryProbability cp sp secs asset)
      (nhdsWithin 0 (Set.Ioi 0)) (nhds 0) := by
  have hsp : 0 < sp := lt_trans hcp hlt
  have hσ := ANNUAL_VOL_pos asset
  have hL : Real.log (cp / sp) < 0 :=
    Real.log_neg (div_pos hcp hsp) ((div_lt_one hsp).mpr hlt)
  have hd2 : Filter.Tendsto (fun secs : ℝ =>
      (Real.log (cp / sp) +
        -(1/2) * ANNUAL_VOL asset * ANNUAL_VOL asset * (secs / (365.25 * 24 * 3600))) /
      (ANNUAL_VOL asset * Real.sqrt (secs / (365.25 * 24 * 3600))))
      (nhdsWithin 0 (Set.Ioi 0)) Filter.atBot :=
    (d2_tendsto_atBot (Real.log (cp / sp)) (ANNUAL_VOL asset) hL hσ).comp divY_tendsto
  have h1 : Filter.Tendsto (fun secs : ℝ => normalCDF
      ((Real.log (cp / sp) +
        -(1/2) * ANNUAL_VOL asset * ANNUAL_VOL asset * (secs / (365.25 * 24 * 3600))) /
      (ANNUAL_VOL asset * Real.sqrt (secs / (365.25 * 24 * 3600)))))
      (nhdsWithin 0 (Set.Ioi 0)) (nhds 0) := normalCDF_tendsto_zero.comp hd2
  refine Filter.Tendsto.congr' ?_ h1
  filter_upwards [self_mem_nhdsWithin] with secs hsecs
  exact (binaryProbability_pos_eq cp sp secs asset hcp hsp (Set.mem_Ioi.mp hsecs)).symm

theorem binaryProbability_expired (cp sp secs : ℝ) (asset : String)
    (hcp : 0 < cp) (hsp : 0 < sp) (hsecs : secs ≤ 0) :
    binaryProbability cp sp secs asset = if sp < cp then 99/100 else 1/100 := by
  unfold binaryProbability
  rw [if_neg (by push_neg; exact ⟨ne_of_gt hcp, ne_of_gt hsp, hsp⟩), if_pos hsecs]

/-- C8: shape of `_binaryProbability` (lines 499-520).  For every fixed
`startPrice > 0`, `secsRemaining > 0` and per-asset volatility, the
probability is non-decreasing in `currentPrice` over positive prices; for
fixed `currentPrice > startPrice` it tends to 1 as `secsRemaining → 0⁺`,
for `currentPrice < startPrice` it tends to 0; and at `secsRemaining ≤ 0`
it returns the near-certain values 0.99 / 0.01 by price side. -/
theorem binary_probability_shape :
    (∀ (sp secs : ℝ) (asset : String) (c1 c2 : ℝ), 0 < sp → 0 < secs → 0 < c1 → c1 ≤ c2 →
      binaryProbability c1 sp secs asset ≤ binaryProbability c2 sp secs asset) ∧
    (∀ (cp sp : ℝ) (asset : String), 0 < sp → sp < cp →
      Filter.Tendsto (fun secs => binaryProbability cp sp secs asset)
        (nhdsWithin 0 (Set.Ioi 0)) (nhds 1)) ∧
    (∀ (cp sp : ℝ) (asset : String), 0 < cp → cp < sp →
      Filter.Tendsto (fun secs => binaryProbability cp sp secs asset)
        (nhdsWithin 0 (Set.Ioi 0)) (nhds 0)) ∧
    (∀ (cp sp secs : ℝ) (asset : String), 0 < cp → 0 < sp → secs ≤ 0 →
      binaryProbability cp sp secs asset = if sp < cp then 99/100 else 1/100) :=
  ⟨fun sp secs asset _ _ hsp hsecs hc1 h12 =>
      binaryProbability_mono_cp sp secs asset hsp hsecs hc1 h12,
    fun cp sp asset hsp hlt => binaryProbability_tendsto_one cp sp asset hsp hlt,
    fun cp sp asset hcp hlt => binaryProbability_tendsto_zero cp sp asset hcp hlt,
    fun cp sp secs asset hcp hsp hsecs =>
      binaryProbability_expired cp sp secs asset hcp hsp hsecs⟩

/-- C8 witness: the four conjuncts at concrete inputs (BTC, reference
price 0.5): monotone step 0.6 → 0.7 at 60 s, limit 1 above the reference,
limit 0 below it, and the expired value 0.99 above the reference. -/
theorem binary_probability_shape_witness :
    ((0:ℝ) < 1/2 ∧ (0:ℝ) < 60 ∧ (0:ℝ) < 3/5 ∧ (3/5:ℝ) ≤ 7/10 ∧
      binaryProbability (3/5) (1/2) 60 assetBTC ≤ binaryProbability (7/10) (1/2) 60 assetBTC) ∧
    Filter.Tendsto (fun secs => binaryProbability (3/5) (1/2) secs assetBTC)
      (nhdsWithin 0 (Set.Ioi 0)) (nhds 1) ∧
    Filter.Tendsto (fun secs => binaryProbability (2/5) (1/2) secs assetBTC)
      (nhdsWithin 0 (Set.Ioi 0)) (nhds 0) ∧
    binaryProbability (3/5) (1/2) (-5) assetBTC = 99/100 := by
  refine ⟨⟨by norm_num, by norm_num, by norm_num, by norm_num,
      binary_probability_shape.1 (1/2) 60 assetBTC (3/5) (7/10) (by norm_num) (by norm_num)
        (by norm_num) (by norm_num)⟩,
    binary_probability_shape.2.1 (3/5) (1/2) assetBTC (by norm_num) (by norm_num),
    binary_probability_shape.2.2.1 (2/5) (1/2) assetBTC (by norm_num) (by norm_num), ?_⟩
  rw [binary_probability_shape.2.2.2 (3/5) (1/2) (-5) assetBTC (by norm_num) (by norm_num)
    (by norm_num)]
  rw [if_pos (show (1:ℝ)/2 < 3/5 by norm_num)]

end Scalper
